import Mathlib

/-!
Verification of the call-packing and dispatch core of the rpc.hpp library
against its specification.

The development shallowly embeds:
  * the JSON value model used by the nlohmann-JSON ("njson") serial adapter
    (`JVal`), together with the object/array operations the adapter performs;
  * the byte transport (`MsgBytes`), modelling the msgpack encoding performed
    by the external nlohmann library abstractly as an injective constructor
    (`MsgBytes.enc`) plus non-decoding byte strings (`MsgBytes.garbage`);
  * the typed value universe of supported RPC argument types (`RType`, `RVal`);
  * `packed_func` (`PackedFunc`), the njson adapter (`validate_arg`,
    `push_arg`, `parse_arg`, `parse_args`, `serialize_pack`,
    `deserialize_pack`, `from_bytes`, `to_bytes`, `set_exception`,
    `extract_exception`, `get_func_name`);
  * the server (`server_bind`, `server_bind_cached`, `dispatch_func`,
    `dispatch_cached_func`, `dispatch`) and the client (`tuple_bind`,
    `call_func`).

C++ exceptions are modelled with `Except`: `CppErr.rpc` stands for the
`rpc_exception` hierarchy (a kind from the `exception_type` enumeration plus a
message) and `CppErr.std` for any other `std::exception` (such as the
nlohmann `type_error` raised by a failing json-to-string conversion).
Enumeration values are carried as `Int`, exactly as the underlying values of
the C++ `enum class exception_type`, so that `static_cast` round-trips are
value-preserving.

Handlers carry a ghost `Nat` counting callback invocations; it instruments
the cache-idempotence property and does not influence any computed value.
-/

namespace RpcHpp

/-! ## JSON values (the njson serial object model) -/

/-- A JSON value as manipulated by the njson adapter.  Floating-point numbers
never participate in arithmetic in the modelled code, so a float carries an
abstract integer payload identifying its value; `jint`/`jfloat` mirror the
`is_number_float` distinction the adapter checks. -/
inductive JVal where
  | jnull
  | jbool (b : Bool)
  | jint (n : Int)
  | jfloat (payload : Int)
  | jstr (s : String)
  | jarr (elems : List JVal)
  | jobj (fields : List (String × JVal))
  deriving Repr

mutual

/-- Equality test on JSON values (used for map keys over encoded bytes). -/
def jvalBeq : JVal → JVal → Bool
  | .jnull, .jnull => true
  | .jbool a, .jbool b => a == b
  | .jint a, .jint b => a == b
  | .jfloat a, .jfloat b => a == b
  | .jstr a, .jstr b => a == b
  | .jarr a, .jarr b => jvalListBeq a b
  | .jobj a, .jobj b => jvalFieldsBeq a b
  | _, _ => false

/-- Elementwise equality of JSON arrays. -/
def jvalListBeq : List JVal → List JVal → Bool
  | [], [] => true
  | x :: xs, y :: ys => jvalBeq x y && jvalListBeq xs ys
  | _, _ => false

/-- Elementwise equality of JSON object field lists. -/
def jvalFieldsBeq : List (String × JVal) → List (String × JVal) → Bool
  | [], [] => true
  | (k, v) :: xs, (k', v') :: ys => k == k' && jvalBeq v v' && jvalFieldsBeq xs ys
  | _, _ => false

end

/-- The `size()` of a json value in nlohmann: 0 for null, the element count
for arrays and objects, 1 for every scalar. -/
def sizeJ : JVal → Nat
  | .jnull => 0
  | .jarr xs => xs.length
  | .jobj fs => fs.length
  | _ => 1

/-- nlohmann `type_name()`. -/
def type_name_j : JVal → String
  | .jnull => "null"
  | .jbool _ => "boolean"
  | .jint _ => "number"
  | .jfloat _ => "number"
  | .jstr _ => "string"
  | .jarr _ => "array"
  | .jobj _ => "object"

/-- nlohmann `empty()`: true for null, container emptiness for containers,
false for every scalar (including the empty string). -/
def isEmptyJ : JVal → Bool
  | .jnull => true
  | .jarr xs => xs.isEmpty
  | .jobj fs => fs.isEmpty
  | _ => false

/-- `is_null()`. -/
def isNullJ : JVal → Bool
  | .jnull => true
  | _ => false

/-- `is_string()`. -/
def isStrJ : JVal → Bool
  | .jstr _ => true
  | _ => false

/-- `is_object()`. -/
def isObjJ : JVal → Bool
  | .jobj _ => true
  | _ => false

/-- Field lookup in an object field list (first match). -/
def getField : List (String × JVal) → String → Option JVal
  | [], _ => Option.none
  | (k', v) :: rest, k => if k' == k then some v else getField rest k

/-- Insert-or-assign of a field in an object field list. -/
def setField : List (String × JVal) → String → JVal → List (String × JVal)
  | [], k, v => [(k, v)]
  | (k', v') :: rest, k, v =>
    if k' == k then (k, v) :: rest else (k', v') :: setField rest k v

/-- `obj.find(key)` / `obj.contains(key)` style lookup. -/
def objGet? (j : JVal) (k : String) : Option JVal :=
  match j with
  | .jobj fs => getField fs k
  | _ => Option.none

/-- `obj[key]` read access; a missing key yields null (the C++ const
accessor is undefined on a missing key — no modelled code path reads a
missing key except through this defined default). -/
def objGetD (j : JVal) (k : String) : JVal :=
  (objGet? j k).getD .jnull

/-- `obj.contains(key)`. -/
def objContains (j : JVal) (k : String) : Bool :=
  (objGet? j k).isSome

/-- `obj[key] = v`: insert-or-assign; assignment into a null json turns it
into an object, as in nlohmann.  (On a non-object non-null value the C++
call throws; that situation is unreachable in the modelled paths.) -/
def objSet (j : JVal) (k : String) (v : JVal) : JVal :=
  match j with
  | .jobj fs => .jobj (setField fs k v)
  | .jnull => .jobj [(k, v)]
  | other => other

/-- The check `obj[\x22except_type\x22] != 0` performed by `from_bytes`:
json equality against the integer zero compares numbers numerically and is
false for every non-number. -/
def exceptTypeNonzero (j : JVal) : Bool :=
  match j with
  | .jint n => n != 0
  | .jfloat p => p != 0
  | _ => true

/-! ## Byte transport

The njson adapter delegates `to_bytes`/`from_bytes` to the external nlohmann
msgpack encoder, which is not part of this repository.  It is modelled
abstractly: `enc j` is the (injective) msgpack encoding of the json value
`j`, and `garbage i` ranges over byte strings that raise `parse_error` when
decoded.  Byte equality is structural equality of this type. -/

/-- A byte buffer as consumed/produced by the adapter. -/
inductive MsgBytes where
  | enc (j : JVal)
  | garbage (id : Nat)
  deriving Repr

/-- Byte-string equality. -/
def bytesBeq : MsgBytes → MsgBytes → Bool
  | .enc a, .enc b => jvalBeq a b
  | .garbage i, .garbage j => i == j
  | _, _ => false

/-- `nlohmann::json::from_msgpack`, returning none on `parse_error`. -/
def parseBytes : MsgBytes → Option JVal
  | .enc j => some j
  | .garbage _ => Option.none

/-- `njson_adapter::to_bytes`. -/
def to_bytes (j : JVal) : MsgBytes := .enc j

/-- `njson_adapter::empty_object()`. -/
def empty_object : JVal := .jobj []

/-- `njson_adapter::from_bytes`: msgpack parse followed by the structural
validation of the decoded object (`is_object()` is rendered as the match on
the object constructor). -/
def from_bytes (b : MsgBytes) : Option JVal :=
  match parseBytes b with
  | Option.none => Option.none
  | some obj =>
    match obj with
    | .jobj _ =>
      if objContains obj "except_type" then
        -- Objects with exceptions can be otherwise empty
        if exceptTypeNonzero (objGetD obj "except_type") && !objContains obj "err_mesg" then
          Option.none
        else some obj
      else
        match objGet? obj "func_name" with
        | Option.none => Option.none
        | some fn =>
          if !isStrJ fn || isEmptyJ fn then Option.none
          else
            match objGet? obj "args" with
            | some (.jarr _) => some obj
            | _ => Option.none
    | _ => Option.none

/-! ## Errors

`exception_type` values are carried as the underlying `Int` of the C++
enumeration, so `static_cast` between the enum and integers is
value-preserving, exactly as in the source. -/

/-- `exception_type::none`. -/
def etNone : Int := 0
/-- `exception_type::func_not_found`. -/
def etFuncNotFound : Int := 1
/-- `exception_type::remote_exec`. -/
def etRemoteExec : Int := 2
/-- `exception_type::serialization`. -/
def etSerialization : Int := 3
/-- `exception_type::deserialization`. -/
def etDeserialization : Int := 4
/-- `exception_type::signature_mismatch`. -/
def etSignatureMismatch : Int := 5
/-- `exception_type::client_send`. -/
def etClientSend : Int := 6
/-- `exception_type::client_receive`. -/
def etClientReceive : Int := 7
/-- `exception_type::server_send`. -/
def etServerSend : Int := 8
/-- `exception_type::server_receive`. -/
def etServerReceive : Int := 9

/-- An `rpc_exception`: its `exception_type` value and message. -/
structure RpcErr where
  ty : Int
  msg : String
  deriving DecidableEq, Repr

/-- A thrown C++ exception: either part of the `rpc_exception` hierarchy or
some other `std::exception` (carrying only its `what()` message). -/
inductive CppErr where
  | rpc (e : RpcErr)
  | std (msg : String)
  deriving DecidableEq, Repr

/-- `packed_func_base::throw_ex`: the switch re-raises the concrete
subclass for each enumerator (which carries the same kind value); the
default case raises a plain `rpc_exception` with kind `none`. -/
def throw_ex (et : Int) (m : String) : RpcErr :=
  if 1 ≤ et ∧ et ≤ 9 then ⟨et, m⟩ else ⟨etNone, m⟩

/-- `njson_adapter::set_exception`. -/
def set_exception (obj : JVal) (e : RpcErr) : JVal :=
  objSet (objSet obj "except_type" (.jint e.ty)) "err_mesg" (.jstr e.msg)

/-- Implicit conversion of a json value to `std::string`; a non-string raises
a nlohmann `type_error` (a `std::exception` outside the rpc hierarchy). -/
def getStringJ : JVal → Except CppErr String
  | .jstr s => .ok s
  | j => .error (.std ("type must be string, but is " ++ type_name_j j))

/-- Conversion of a json value to an integer (`get<int>` / the implicit
conversion feeding `static_cast<exception_type>`); nlohmann accepts any
number and raises `type_error` otherwise. -/
def getIntJ : JVal → Except CppErr Int
  | .jint n => .ok n
  | .jfloat p => .ok p
  | j => .error (.std ("type must be number, but is " ++ type_name_j j))

/-- `njson_adapter::get_func_name`. -/
def get_func_name (obj : JVal) : Except CppErr String :=
  getStringJ (objGetD obj "func_name")

/-- `njson_adapter::extract_exception`: `at()` raises on a missing key and
`get` raises on a wrongly-typed value. -/
def extract_exception (obj : JVal) : Except CppErr RpcErr :=
  match objGet? obj "err_mesg" with
  | Option.none => .error (.std "key err_mesg not found")
  | some mj =>
    match getStringJ mj with
    | .error e => .error e
    | .ok m =>
      match objGet? obj "except_type" with
      | Option.none => .error (.std "key except_type not found")
      | some tj =>
        match getIntJ tj with
        | .error e => .error e
        | .ok t => .ok ⟨t, m⟩

/-! ## Supported argument types and values -/

/-- The supported RPC argument types of the modelled universe: booleans,
integral numbers, floating-point numbers, strings, and ordered containers. -/
inductive RType where
  | rbool
  | rint
  | rfloat
  | rstr
  | rlist (elem : RType)
  deriving DecidableEq, Repr

/-- A typed RPC value. -/
inductive RVal where
  | vbool (b : Bool)
  | vint (n : Int)
  | vfloat (payload : Int)
  | vstr (s : String)
  | vlist (elems : List RVal)
  deriving Repr

mutual

/-- Typing of values. -/
def hasType : RVal → RType → Bool
  | .vbool _, .rbool => true
  | .vint _, .rint => true
  | .vfloat _, .rfloat => true
  | .vstr _, .rstr => true
  | .vlist xs, .rlist et => allHasType xs et
  | _, _ => false

/-- All elements of a list have the given type. -/
def allHasType : List RVal → RType → Bool
  | [], _ => true
  | x :: rest, t => hasType x t && allHasType rest t

end

/-- Scalar (non-container) types. -/
def scalarType : RType → Bool
  | .rlist _ => false
  | _ => true

/-- Types whose containers hold only scalars (no nested containers). -/
def flatType : RType → Bool
  | .rlist et => scalarType et
  | _ => true

/-! ## The njson adapter: argument encoding and parsing -/

/-- `njson_adapter::validate_arg<T>`: booleans must be json booleans,
integral types non-float numbers, floating types float numbers, strings
json strings, containers json arrays. -/
def validate_arg : RType → JVal → Bool
  | .rbool, .jbool _ => true
  | .rint, .jint _ => true
  | .rfloat, .jfloat _ => true
  | .rstr, .jstr _ => true
  | .rlist _, .jarr _ => true
  | _, _ => false

/-- A readable stand-in for `typeid(T).name()` (whose spelling is
implementation-defined in C++). -/
def rtype_name : RType → String
  | .rbool => "bool"
  | .rint => "int"
  | .rfloat => "double"
  | .rstr => "string"
  | .rlist _ => "container"

/-- `njson_adapter::mismatch_string`. -/
def mismatch_string (t : RType) (j : JVal) : String :=
  "njson expected type: " ++ rtype_name t ++ ", got type: " ++ type_name_j j

mutual

/-- `njson_adapter::push_arg`: scalars are stored as their natural json
scalar; containers become arrays with one `push_args` per element. -/
def push_arg : RVal → JVal
  | .vbool b => .jbool b
  | .vint n => .jint n
  | .vfloat p => .jfloat p
  | .vstr s => .jstr s
  | .vlist xs => .jarr (pushList xs)

/-- The `for_each` loop of the container branch of `push_arg` (each element
goes through `push_args`, i.e. `push_arg` followed by `push_back`). -/
def pushList : List RVal → List JVal
  | [] => []
  | x :: rest => push_arg x :: pushList rest

end

/-- Size bound used for termination of the parser: an indexed element of a
list is smaller than the array containing the list. -/
theorem sizeOf_getD_lt (xs : List JVal) (idx : Nat) :
    sizeOf ((xs[idx]?).getD JVal.jnull) < 1 + sizeOf xs := by
  induction xs generalizing idx with
  | nil => simp
  | cons x rest ih =>
    cases idx with
    | zero => simp; omega
    | succ n =>
      have h := ih n
      simp at h ⊢
      omega

mutual

/-- `njson_adapter::parse_arg<T>`: validate the json value against the
expected type (raising `function_mismatch` — i.e. `SignatureMismatch` — on
failure, the only exception these parsers raise; the embedding carries the
message and the kind is attached at the `deserialize_pack` boundary), then
convert.  The container branch iterates `parse_args` over the elements with
a fresh counter, exactly as the source loop does. -/
def parse_arg : RType → JVal → Except String RVal
  | t, j =>
    if validate_arg t j then
      match t, j with
      | .rbool, .jbool b => .ok (.vbool b)
      | .rint, .jint n => .ok (.vint n)
      | .rfloat, .jfloat p => .ok (.vfloat p)
      | .rstr, .jstr s => .ok (.vstr s)
      | .rlist et, .jarr xs =>
        match parseElems et xs 0 with
        | .error e => .error e
        | .ok vs => .ok (.vlist vs)
      | t', j' => .error (mismatch_string t' j')
    else .error (mismatch_string t j)
termination_by _ j => (sizeOf j, 0)
decreasing_by
  all_goals simp_wf
  all_goals apply Prod.Lex.left
  all_goals simp

/-- The element loop of the container branch of `parse_arg`: the counter is
threaded through the iterations (the source shares one `arg_counter` across
the whole loop). -/
def parseElems (et : RType) (xs : List JVal) (c : Nat) : Except String (List RVal) :=
  match xs with
  | [] => .ok []
  | x :: rest =>
    match parse_args et x c with
    | .error e => .error e
    | .ok (v, c') =>
      match parseElems et rest c' with
      | .error e => .error e
      | .ok vs => .ok (v :: vs)
termination_by (sizeOf xs, 1)
decreasing_by
  all_goals simp_wf
  all_goals apply Prod.Lex.left
  all_goals try simp
  all_goals omega

/-- `njson_adapter::parse_args<T>`: bounds-check the counter against
`size()`, then parse the indexed element when the input is an array
(post-incrementing the counter) and the input itself otherwise. -/
def parse_args (t : RType) (arr : JVal) (idx : Nat) : Except String (RVal × Nat) :=
  if idx ≥ sizeJ arr then .error "Argument count mismatch"
  else
    match arr with
    | .jarr xs =>
      match parse_arg t (xs.getD idx .jnull) with
      | .error e => .error e
      | .ok v => .ok (v, idx + 1)
    | j =>
      match parse_arg t j with
      | .error e => .error e
      | .ok v => .ok (v, idx)
termination_by (sizeOf arr, 2)
decreasing_by
  all_goals simp_wf
  · apply Prod.Lex.left
    have h := sizeOf_getD_lt xs idx
    simp at h ⊢
    omega
  · apply Prod.Lex.right
    omega

end

/-- The argument-tuple initializer of `deserialize_pack`: one `parse_args`
per expected parameter type, left to right, sharing one counter. -/
def parseSig : List RType → JVal → Nat → Except String (List RVal)
  | [], _, _ => .ok []
  | t :: rest, arr, c =>
    match parse_args t arr c with
    | .error e => .error e
    | .ok (v, c') =>
      match parseSig rest arr c' with
      | .error e => .error e
      | .ok vs => .ok (v :: vs)

/-! ## PackedCall (`detail::packed_func`) -/

/-- The typed record of one invocation.  `rty = none` models the
`packed_func<void, …>` specialization (which has no result slot);
`except_type`/`err_mesg` are the fields of `packed_func_base`.  The intended
argument types live alongside as a signature where theorems need them. -/
structure PackedFunc where
  rty : Option RType
  func_name : String
  args : List RVal
  result : Option RVal
  except_type : Int
  err_mesg : String
  deriving Repr

/-- `operator bool`: the base class checks `m_except_type == none`; the
non-void specialization additionally requires a present result. -/
def PackedFunc.toBool (p : PackedFunc) : Bool :=
  match p.rty with
  | Option.none => p.except_type == etNone
  | some _ => p.result.isSome && p.except_type == etNone

/-- `get_result`: on an unsuccessful pack, `throw_ex` raises the error
corresponding to the carried kind; on success the stored result (nothing
for the void specialization) is returned. -/
def PackedFunc.get_result (p : PackedFunc) : Except RpcErr (Option RVal) :=
  if p.toBool then
    .ok (match p.rty with
      | Option.none => Option.none
      | some _ => p.result)
  else .error (throw_ex p.except_type p.err_mesg)

/-- `njson_adapter::serialize_pack`: write `func_name` and the args array;
an unsuccessful pack gets `except_type` and `err_mesg` (and no result); a
successful non-void pack gets its result. -/
def serialize_pack (p : PackedFunc) : JVal :=
  let obj := objSet (objSet empty_object "func_name" (.jstr p.func_name))
    "args" (.jarr (pushList p.args))
  if !p.toBool then
    objSet (objSet obj "except_type" (.jint p.except_type)) "err_mesg" (.jstr p.err_mesg)
  else
    match p.rty, p.result with
    | some _, some r => objSet obj "result" (push_arg r)
    | some _, Option.none => obj -- unreachable: a successful non-void pack has a result
    | Option.none, _ => obj

/-- `njson_adapter::deserialize_pack<R, Args…>`: parse the argument tuple
first (the brace-initializer of `args`), then build the pack, reading
`result` when present and non-null (for non-void `R`) and the error fields
when `except_type` is present.  The parsers raise only `function_mismatch`,
whose `SignatureMismatch` kind is attached here. -/
def deserialize_pack (rty : Option RType) (sig : List RType) (obj : JVal) :
    Except CppErr PackedFunc :=
  match parseSig sig (objGetD obj "args") 0 with
  | .error m => .error (.rpc ⟨etSignatureMismatch, m⟩)
  | .ok args =>
    match getStringJ (objGetD obj "func_name") with
    | .error e => .error e
    | .ok fname =>
      match rty with
      | Option.none =>
        if objContains obj "except_type" then
          match getStringJ (objGetD obj "err_mesg") with
          | .error e => .error e
          | .ok m =>
            match getIntJ (objGetD obj "except_type") with
            | .error e => .error e
            | .ok t => .ok ⟨Option.none, fname, args, Option.none, t, m⟩
        else .ok ⟨Option.none, fname, args, Option.none, etNone, ""⟩
      | some rt =>
        if objContains obj "result" && !isNullJ (objGetD obj "result") then
          match parse_arg rt (objGetD obj "result") with
          | .error m => .error (.rpc ⟨etSignatureMismatch, m⟩)
          | .ok r => .ok ⟨some rt, fname, args, some r, etNone, ""⟩
        else if objContains obj "except_type" then
          match getStringJ (objGetD obj "err_mesg") with
          | .error e => .error e
          | .ok m =>
            match getIntJ (objGetD obj "except_type") with
            | .error e => .error e
            | .ok t => .ok ⟨some rt, fname, args, Option.none, t, m⟩
        else .ok ⟨some rt, fname, args, Option.none, etNone, ""⟩

/-! ## Server dispatcher -/

/-- The per-function result cache: function name to a map from encoded
request bytes to the cached result value. -/
abbrev Cache := List (String × List (MsgBytes × RVal))

/-- A dispatch-table entry (`std::function<void(serial_t&)>`).  It returns
the mutated serial object, the cache state and a ghost count of callback
invocations; a `CppErr` result models an exception escaping the entry. -/
abbrev Handler := JVal → Cache → Except CppErr (JVal × Cache × Nat)

/-- `unordered_map::find` over the dispatch table. -/
def tableFind : List (String × Handler) → String → Option Handler
  | [], _ => Option.none
  | (k, h) :: rest, nm => if k == nm then some h else tableFind rest nm

/-- `unordered_map::emplace`: inserts only when the key is absent
(first binding wins). -/
def table_emplace (tbl : List (String × Handler)) (nm : String) (h : Handler) :
    List (String × Handler) :=
  if (tableFind tbl nm).isSome then tbl else tbl ++ [(nm, h)]

/-- Lookup in a per-function cache bucket by byte equality of keys. -/
def bucketFind : List (MsgBytes × RVal) → MsgBytes → Option RVal
  | [], _ => Option.none
  | (k', v) :: rest, k => if bytesBeq k' k then some v else bucketFind rest k

/-- `result_cache[bytes] = value`: insert-or-assign in a bucket. -/
def bucketInsert : List (MsgBytes × RVal) → MsgBytes → RVal → List (MsgBytes × RVal)
  | [], k, v => [(k, v)]
  | (k', v') :: rest, k, v =>
    if bytesBeq k' k then (k', v) :: rest else (k', v') :: bucketInsert rest k v

/-- `get_func_cache<R>(name)`: the per-function bucket (created empty on
first use, which is observationally the same as absent). -/
def get_func_cache : Cache → String → List (MsgBytes × RVal)
  | [], _ => []
  | (nm', bkt) :: rest, nm => if nm' == nm then bkt else get_func_cache rest nm

/-- Writing one entry into a named bucket of the cache. -/
def cache_insert : Cache → String → MsgBytes → RVal → Cache
  | [], nm, k, v => [(nm, bucketInsert [] k v)]
  | (nm', bkt) :: rest, nm, k, v =>
    if nm' == nm then (nm', bucketInsert bkt k v) :: rest
    else (nm', bkt) :: cache_insert rest nm k v

/-- A bound callback: the decoded argument tuple to either a result value
(`some` for non-void, `none` for void) or the message of a raised
exception. -/
abbrev Callback := List RVal → Except String (Option RVal)

/-- The try/catch around `deserialize_pack` in `dispatch_func` and
`dispatch_cached_func`: `rpc_exception`s pass through, any other
`std::exception` becomes a `deserialization_error`. -/
def wrapDeser (r : Except CppErr PackedFunc) : Except CppErr PackedFunc :=
  match r with
  | .ok p => .ok p
  | .error (.rpc e) => .error (.rpc e)
  | .error (.std m) => .error (.rpc ⟨etDeserialization, m⟩)

/-- `run_callback`: apply the callback to the decoded args (regardless of
any error state the pack carries); a raising callback becomes
`remote_exec_error`; for non-void `R` the returned value is stored with
`set_result`. -/
def run_callback (f : Callback) (pack : PackedFunc) : Except CppErr PackedFunc :=
  match f pack.args with
  | .error m => .error (.rpc ⟨etRemoteExec, m⟩)
  | .ok res =>
    .ok (match pack.rty with
      | some _ => { pack with result := res }
      | Option.none => pack)

/-- `server_interface::dispatch_func`: deserialize, run the callback, and
re-serialize.  The first component is the ghost invocation count. -/
def dispatch_func (rty : Option RType) (sig : List RType) (f : Callback) (obj : JVal) :
    Nat × Except CppErr JVal :=
  match wrapDeser (deserialize_pack rty sig obj) with
  | .error e => (0, .error e)
  | .ok pack =>
    match run_callback f pack with
    | .error e => (1, .error e)
    | .ok pack2 => (1, .ok (serialize_pack pack2))

/-- The lambda registered by `bind`: it catches `rpc_exception` and encodes
it into the serial object; any other exception would escape. -/
def bind_wrapper (rty : Option RType) (sig : List RType) (f : Callback) : Handler :=
  fun obj cache =>
    match dispatch_func rty sig f obj with
    | (n, .ok o) => .ok (o, cache, n)
    | (n, .error (.rpc e)) => .ok (set_exception obj e, cache, n)
    | (_, .error e) => .error e

/-- `server_interface::dispatch_cached_func`: deserialize; for non-void `R`
compute the cache key `to_bytes(obj)` before invocation and serve a hit from
the bucket; on a miss run the callback, store `pack.get_result()` under the
key, and re-serialize. -/
def dispatch_cached_func (rty : Option RType) (sig : List RType) (f : Callback)
    (obj : JVal) (cache : Cache) : Nat × Cache × Except CppErr JVal :=
  match wrapDeser (deserialize_pack rty sig obj) with
  | .error e => (0, cache, .error e)
  | .ok pack =>
    match rty with
    | Option.none =>
      match run_callback f pack with
      | .error e => (1, cache, .error e)
      | .ok pack2 => (1, cache, .ok (serialize_pack pack2))
    | some _ =>
      -- the cache key to_bytes(obj) is computed before any invocation
      match bucketFind (get_func_cache cache pack.func_name) (to_bytes obj) with
      | some v => (0, cache, .ok (serialize_pack { pack with result := some v }))
      | Option.none =>
        match run_callback f pack with
        | .error e => (1, cache, .error e)
        | .ok pack2 =>
          match pack2.get_result with
          | .error e => (1, cache, .error (.rpc e))
          | .ok (some r) =>
            (1, cache_insert cache pack.func_name (to_bytes obj) r, .ok (serialize_pack pack2))
          | .ok Option.none => (1, cache, .ok (serialize_pack pack2))
            -- unreachable: get_result of a successful non-void pack is present

/-- The lambda registered by `bind_cached`. -/
def cached_wrapper (rty : Option RType) (sig : List RType) (f : Callback) : Handler :=
  fun obj cache =>
    match dispatch_cached_func rty sig f obj cache with
    | (n, c, .ok o) => .ok (o, c, n)
    | (n, c, .error (.rpc e)) => .ok (set_exception obj e, c, n)
    | (_, _, .error e) => .error e

/-- `server_interface::bind`. -/
def server_bind (tbl : List (String × Handler)) (nm : String)
    (rty : Option RType) (sig : List RType) (f : Callback) : List (String × Handler) :=
  table_emplace tbl nm (bind_wrapper rty sig f)

/-- `server_interface::bind_cached`. -/
def server_bind_cached (tbl : List (String × Handler)) (nm : String)
    (rty : Option RType) (sig : List RType) (f : Callback) : List (String × Handler) :=
  table_emplace tbl nm (cached_wrapper rty sig f)

/-- `server_interface::dispatch`: decode the bytes (an undecodable input is
answered with a `ServerReceive` error object), read the function name, look
the handler up (a miss is answered with `FunctionNotFound`), run it, and
re-encode.  The function has no try/catch: exceptions raised by
`get_func_name` or escaping a handler propagate to the caller (the
`.error` case). -/
def dispatch (tbl : List (String × Handler)) (cache : Cache) (b : MsgBytes) :
    Except CppErr (MsgBytes × Cache × Nat) :=
  match from_bytes b with
  | Option.none =>
    let errObj := set_exception empty_object ⟨etServerReceive, "Invalid RPC object received"⟩
    .ok (to_bytes errObj, cache, 0)
  | some obj =>
    match get_func_name obj with
    | .error e => .error e
    | .ok fname =>
      match tableFind tbl fname with
      | some h =>
        match h obj cache with
        | .ok (o, c, n) => .ok (to_bytes o, c, n)
        | .error e => .error e
      | Option.none =>
        let obj2 := set_exception obj
          ⟨etFuncNotFound, "RPC error: Called function: \"" ++ fname ++ "\" not found"⟩
        .ok (to_bytes obj2, cache, 0)

/-! ## Client surface -/

/-- How a caller passes an argument to `call_func` (after the `decay_str`
transformation).  `mutRef` is a non-const, non-pointer lvalue reference;
`constRef` a const reference; `strLit` a string literal, decayed to
`const std::string&`.  A prvalue temporary has no caller-observable object
after the call and is therefore not modelled as a caller slot. -/
inductive ArgKind where
  | mutRef
  | constRef
  | strLit
  deriving DecidableEq, Repr

/-- One assignment step of `detail::tuple_bind`: the value is copied back
exactly when the destination is a non-const, non-pointer reference. -/
def copy_back_one (k : ArgKind) (dest src : RVal) : RVal :=
  match k with
  | .mutRef => src
  | .constRef => dest
  | .strLit => dest

/-- `detail::tuple_bind`: assign parsed reply args back into the caller's
argument slots, skipping const and string-decayed slots. -/
def tuple_bind (dests : List (ArgKind × RVal)) (srcs : List RVal) : List RVal :=
  List.zipWith (fun d s => copy_back_one d.1 d.2 s) dests srcs

/-- `client_interface::call_func`: build the request pack (result absent),
encode and send it (`ClientSend` on a raising transport), receive
(`ClientReceive`), decode the reply (`ClientReceive` when it does not
parse, `Deserialization` for other non-rpc failures), copy out-parameters
back, and return `get_result()` together with the callers' new argument
values. -/
def call_func (send : MsgBytes → Except String Unit)
    (receive : Unit → Except String MsgBytes)
    (rty : Option RType) (sig : List RType) (nm : String)
    (cargs : List (ArgKind × RVal)) : Except CppErr (Option RVal × List RVal) :=
  match send (to_bytes (serialize_pack ⟨rty, nm, cargs.map (·.2), Option.none, etNone, ""⟩)) with
  | .error m => .error (.rpc ⟨etClientSend, m⟩)
  | .ok _ =>
    match receive () with
    | .error m => .error (.rpc ⟨etClientReceive, m⟩)
    | .ok rbytes =>
      match from_bytes rbytes with
      | Option.none => .error (.rpc ⟨etClientReceive, "Client received invalid RPC object"⟩)
      | some robj =>
        match wrapDeser (deserialize_pack rty sig robj) with
        | .error e => .error e
        | .ok pack =>
          match pack.get_result with
          | .error e => .error (.rpc e)
          | .ok r => .ok (r, tuple_bind cargs pack.args)

/-! ## General lemmas about serial objects -/

theorem getField_setField_same (fs : List (String × JVal)) (k : String) (v : JVal) :
    getField (setField fs k v) k = some v := by
  induction fs with
  | nil => simp [setField, getField]
  | cons p rest ih =>
    obtain ⟨k', v'⟩ := p
    by_cases h : k' = k
    · simp [setField, getField, h]
    · simp only [setField, getField]
      rw [if_neg (by simpa using h), getField, if_neg (by simpa using h)]
      exact ih

theorem getField_setField_other (fs : List (String × JVal)) (k k₂ : String) (v : JVal)
    (hne : k₂ ≠ k) : getField (setField fs k v) k₂ = getField fs k₂ := by
  induction fs with
  | nil => simp [setField, getField, Ne.symm hne]
  | cons p rest ih =>
    obtain ⟨k', v'⟩ := p
    by_cases h : k' = k
    · subst h
      simp only [setField, getField]
      rw [if_pos (by simp)]
      simp [getField, Ne.symm hne, hne]
    · simp only [setField, getField]
      rw [if_neg (by simpa using h), getField]
      by_cases h₂ : k' = k₂
      · simp [h₂]
      · rw [if_neg (by simpa using h₂), if_neg (by simpa using h₂)]
        exact ih

theorem objGet_objSet_same (fs : List (String × JVal)) (k : String) (v : JVal) :
    objGet? (objSet (.jobj fs) k v) k = some v := by
  simp [objSet, objGet?, getField_setField_same]

theorem objGet_objSet_other (fs : List (String × JVal)) (k k₂ : String) (v : JVal)
    (hne : k₂ ≠ k) : objGet? (objSet (.jobj fs) k v) k₂ = objGet? (.jobj fs) k₂ := by
  simp [objSet, objGet?, getField_setField_other _ _ _ _ hne]

theorem set_exception_fields (fs : List (String × JVal)) (e : RpcErr) :
    objGet? (set_exception (.jobj fs) e) "except_type" = some (.jint e.ty) ∧
    objGet? (set_exception (.jobj fs) e) "err_mesg" = some (.jstr e.msg) ∧
    ∀ k, k ≠ "except_type" → k ≠ "err_mesg" →
      objGet? (set_exception (.jobj fs) e) k = objGet? (.jobj fs) k := by
  refine ⟨?_, ?_, ?_⟩
  · rw [set_exception, show objSet (JVal.jobj fs) "except_type" (.jint e.ty) =
      .jobj (setField fs "except_type" (.jint e.ty)) from rfl]
    rw [objGet_objSet_other _ _ _ _ (by decide)]
    simp [objGet?, getField_setField_same]
  · rw [set_exception, show objSet (JVal.jobj fs) "except_type" (.jint e.ty) =
      .jobj (setField fs "except_type" (.jint e.ty)) from rfl]
    exact objGet_objSet_same _ _ _
  · intro k hk1 hk2
    rw [set_exception, show objSet (JVal.jobj fs) "except_type" (.jint e.ty) =
      .jobj (setField fs "except_type" (.jint e.ty)) from rfl]
    rw [objGet_objSet_other _ _ _ _ hk2]
    simp [objGet?, getField_setField_other _ _ _ _ hk1]

/-- An object accepted by `from_bytes` is a json object. -/
theorem from_bytes_isObj (b : MsgBytes) (obj : JVal) (h : from_bytes b = some obj) :
    ∃ fs, obj = .jobj fs := by
  cases b with
  | garbage i => simp [from_bytes, parseBytes] at h
  | enc j =>
    cases j with
    | jobj fs =>
      refine ⟨fs, ?_⟩
      simp only [from_bytes, parseBytes] at h
      by_cases h1 : objContains (JVal.jobj fs) "except_type"
      · by_cases h2 : exceptTypeNonzero (objGetD (JVal.jobj fs) "except_type")
            && !objContains (JVal.jobj fs) "err_mesg"
        · simp [h1, h2] at h
        · simp [h1, h2] at h
          first
          | exact h
          | exact h.symm
      · cases hfn : objGet? (JVal.jobj fs) "func_name" with
        | none => simp [h1, hfn] at h
        | some fn =>
          by_cases h3 : !isStrJ fn || isEmptyJ fn
          · simp [h1, hfn, h3] at h
          · cases hargs : objGet? (JVal.jobj fs) "args" with
            | none => simp [h1, hfn, h3, hargs] at h
            | some a =>
              cases a <;> simp [h1, hfn, h3, hargs] at h
              first
              | exact h
              | exact h.symm
    | jnull => simp [from_bytes, parseBytes] at h
    | jbool b' => simp [from_bytes, parseBytes] at h
    | jint n => simp [from_bytes, parseBytes] at h
    | jfloat p => simp [from_bytes, parseBytes] at h
    | jstr s => simp [from_bytes, parseBytes] at h
    | jarr xs => simp [from_bytes, parseBytes] at h

/-! ## Claim C7 -/

/-- C7: a PackedCall is successful (its boolean truthiness holds) exactly
when its error kind is `None` and, for non-unit `R`, the result is present;
`get_result` on an unsuccessful pack raises the carried error (kind and
message) and on a successful pack returns the stored result (nothing for
unit `R`).  The kind hypotheses say that `except_type` holds a value of the
closed `exception_type` enumeration (0–9). -/
theorem packed_func_bool_and_get_result (p : PackedFunc)
    (h0 : 0 ≤ p.except_type) (h9 : p.except_type ≤ 9) :
    (p.toBool = true ↔ (p.except_type = etNone ∧
      (p.rty = Option.none ∨ p.result.isSome = true))) ∧
    (p.toBool = false → p.get_result = .error ⟨p.except_type, p.err_mesg⟩) ∧
    (p.toBool = true → p.get_result =
      .ok (if p.rty.isSome then p.result else Option.none)) := by
  obtain ⟨rty, fn, args, res, et, msg⟩ := p
  replace h0 : (0 : Int) ≤ et := h0
  replace h9 : et ≤ 9 := h9
  refine ⟨?_, ?_, ?_⟩
  · cases rty <;> cases res <;>
      simp [PackedFunc.toBool, etNone]
  · intro hb
    have het : throw_ex et msg = ⟨et, msg⟩ := by
      rw [throw_ex]
      by_cases h19 : 1 ≤ et ∧ et ≤ 9
      · rw [if_pos h19]
      · rw [if_neg h19, etNone]
        have : et = 0 := by omega
        rw [this]
    simp only [PackedFunc.get_result, hb, if_false, Bool.false_eq_true, het]
  · intro hb
    cases rty <;> simp_all [PackedFunc.get_result, PackedFunc.toBool]

/-- Witness for C7 at a concrete non-void pack carrying a
`RemoteExecution` error. -/
theorem packed_func_bool_and_get_result_witness :
    ((PackedFunc.mk (some .rint) "f" [] Option.none etRemoteExec "boom").toBool = true ↔
      ((PackedFunc.mk (some .rint) "f" [] Option.none etRemoteExec "boom").except_type = etNone ∧
        ((PackedFunc.mk (some .rint) "f" [] Option.none etRemoteExec "boom").rty = Option.none ∨
         (PackedFunc.mk (some .rint) "f" [] Option.none etRemoteExec "boom").result.isSome = true))) ∧
    ((PackedFunc.mk (some .rint) "f" [] Option.none etRemoteExec "boom").toBool = false →
      (PackedFunc.mk (some .rint) "f" [] Option.none etRemoteExec "boom").get_result =
        .error ⟨(PackedFunc.mk (some .rint) "f" [] Option.none etRemoteExec "boom").except_type,
          (PackedFunc.mk (some .rint) "f" [] Option.none etRemoteExec "boom").err_mesg⟩) ∧
    ((PackedFunc.mk (some .rint) "f" [] Option.none etRemoteExec "boom").toBool = true →
      (PackedFunc.mk (some .rint) "f" [] Option.none etRemoteExec "boom").get_result =
        .ok (if (PackedFunc.mk (some .rint) "f" [] Option.none etRemoteExec "boom").rty.isSome
          then (PackedFunc.mk (some .rint) "f" [] Option.none etRemoteExec "boom").result
          else Option.none)) :=
  packed_func_bool_and_get_result
    (PackedFunc.mk (some .rint) "f" [] Option.none etRemoteExec "boom")
    (by decide) (by decide)

/-! ## Claim C10 -/

/-- C10: for non-unit `R`, when the serial object carries both a non-null
`result` field and error fields, `deserialize_pack` returns a successful
pack carrying the parsed result and silently discards the error fields, so
`get_result` returns the value instead of raising. -/
theorem deserialize_pack_result_shadows_error (rt : RType) (sig : List RType)
    (obj : JVal) (argl : List RVal) (nm : String) (rj : JVal) (rv : RVal)
    (Hargs : parseSig sig (objGetD obj "args") 0 = .ok argl)
    (Hfn : objGetD obj "func_name" = JVal.jstr nm)
    (Hres : objGet? obj "result" = some rj)
    (Hnn : isNullJ rj = false)
    (Hparse : parse_arg rt rj = .ok rv)
    (_Hexc : objContains obj "except_type" = true) :
    deserialize_pack (some rt) sig obj = .ok ⟨some rt, nm, argl, some rv, etNone, ""⟩ ∧
    (PackedFunc.mk (some rt) nm argl (some rv) etNone "").get_result = .ok (some rv) := by
  constructor
  · have hd : objGetD obj "result" = rj := by rw [objGetD, Hres]; rfl
    have hc : objContains obj "result" = true := by rw [objContains, Hres]; rfl
    rw [deserialize_pack, Hargs, Hfn]
    simp only [getStringJ, hc, hd, Hnn, Hparse, Bool.not_false, Bool.and_self, if_true]
  · simp [PackedFunc.get_result, PackedFunc.toBool, etNone]

/-- Witness for C10: a serial object with `result = 7`, `except_type = 2`
and `err_mesg` present deserializes to a successful pack with result 7. -/
theorem deserialize_pack_result_shadows_error_witness :
    deserialize_pack (some .rint) [] (JVal.jobj [("func_name", .jstr "f"),
      ("args", .jarr []), ("result", .jint 7), ("except_type", .jint 2),
      ("err_mesg", .jstr "boom")]) =
      .ok ⟨some .rint, "f", [], some (.vint 7), etNone, ""⟩ ∧
    (PackedFunc.mk (some .rint) "f" [] (some (.vint 7)) etNone "").get_result =
      .ok (some (.vint 7)) :=
  deserialize_pack_result_shadows_error .rint [] _ [] "f" (.jint 7) (.vint 7)
    (by simp [parseSig]) (by rfl) (by rfl) (by rfl)
    (by simp [parse_arg, validate_arg]) (by rfl)

/-! ## Claim C4

`bind` and `bind_cached` insert with `unordered_map::emplace`, which leaves
an existing mapping in place: re-binding a name is a no-op and subsequent
dispatches keep invoking the originally bound callback (first-wins), not
the later-bound one as the claim states. -/

/-- A dispatch table with "f" bound twice: first to a callback returning 1,
then to a callback returning 2. -/
def rebindTable : List (String × Handler) :=
  server_bind (server_bind [] "f" (some .rint) [] (fun _ => .ok (some (.vint 1))))
    "f" (some .rint) [] (fun _ => .ok (some (.vint 2)))

/-- A dispatch table with "f" bound once, to the callback returning 2. -/
def secondOnlyTable : List (String × Handler) :=
  server_bind [] "f" (some .rint) [] (fun _ => .ok (some (.vint 2)))

/-- A well-formed request for "f" with no arguments. -/
def rebindRequest : MsgBytes := .enc (.jobj [("func_name", .jstr "f"), ("args", .jarr [])])

/-- Counterexample to C4: after re-binding "f", dispatch still returns the
reply of the FIRST callback (result 1), which differs from the reply the
later-bound callback produces (result 2) — so the later-bound callback is
not the one invoked. -/
theorem bind_rebind_counterexample :
    dispatch rebindTable [] rebindRequest =
      .ok (.enc (.jobj [("func_name", .jstr "f"), ("args", .jarr []), ("result", .jint 1)]),
        [], 1) ∧
    dispatch secondOnlyTable [] rebindRequest =
      .ok (.enc (.jobj [("func_name", .jstr "f"), ("args", .jarr []), ("result", .jint 2)]),
        [], 1) ∧
    JVal.jint 1 ≠ JVal.jint 2 := by
  refine ⟨?_, ?_, by simp⟩ <;>
    simp [rebindTable, secondOnlyTable, rebindRequest, dispatch, from_bytes, parseBytes,
      objContains, objGet?, getField, isStrJ, isEmptyJ, get_func_name, getStringJ, objGetD,
      tableFind, server_bind, table_emplace, bind_wrapper, dispatch_func, wrapDeser,
      deserialize_pack, parseSig, run_callback, serialize_pack, PackedFunc.toBool,
      empty_object, objSet, setField, push_arg, pushList, to_bytes, etNone,
      exceptTypeNonzero]

/-- C4 (amended): calling `bind` or `bind_cached` with a name already
present in the dispatch table is a no-op (`emplace` is first-wins): the
table is unchanged, so subsequent dispatches of that name keep invoking
the originally bound callback. -/
theorem bind_existing_name_noop (tbl : List (String × Handler)) (nm : String)
    (rty : Option RType) (sig : List RType) (f : Callback) (h : Handler)
    (Hex : tableFind tbl nm = some h) :
    server_bind tbl nm rty sig f = tbl ∧ server_bind_cached tbl nm rty sig f = tbl := by
  constructor <;> simp [server_bind, server_bind_cached, table_emplace, Hex]

/-- Witness for the amended C4 at a concrete one-entry table. -/
theorem bind_existing_name_noop_witness :
    server_bind secondOnlyTable "f" (some .rint) [] (fun _ => .ok (some (.vint 3)))
        = secondOnlyTable ∧
    server_bind_cached secondOnlyTable "f" (some .rint) [] (fun _ => .ok (some (.vint 3)))
        = secondOnlyTable :=
  bind_existing_name_noop secondOnlyTable "f" (some .rint) [] _
    (bind_wrapper (some .rint) [] (fun _ => .ok (some (.vint 2))))
    (by simp [secondOnlyTable, server_bind, table_emplace, tableFind])

/-! ## Claim C9 -/

/-- C9: a well-formed request whose function name is not bound in the
dispatch table is answered with a reply that decodes to a
`FunctionNotFound` error whose message is exactly
`RPC error: Called function: "<name>" not found`. -/
theorem dispatch_unknown_function (tbl : List (String × Handler)) (st : Cache)
    (b : MsgBytes) (obj : JVal) (nm : String)
    (Hb : from_bytes b = some obj)
    (Hfn : objGetD obj "func_name" = JVal.jstr nm)
    (Hmiss : tableFind tbl nm = Option.none) :
    dispatch tbl st b = .ok (to_bytes (set_exception obj
      ⟨etFuncNotFound, "RPC error: Called function: \"" ++ nm ++ "\" not found"⟩), st, 0) ∧
    from_bytes (to_bytes (set_exception obj
      ⟨etFuncNotFound, "RPC error: Called function: \"" ++ nm ++ "\" not found"⟩)) =
      some (set_exception obj
        ⟨etFuncNotFound, "RPC error: Called function: \"" ++ nm ++ "\" not found"⟩) ∧
    extract_exception (set_exception obj
      ⟨etFuncNotFound, "RPC error: Called function: \"" ++ nm ++ "\" not found"⟩) =
      .ok ⟨etFuncNotFound, "RPC error: Called function: \"" ++ nm ++ "\" not found"⟩ := by
  obtain ⟨fs, hfs⟩ := from_bytes_isObj b obj Hb
  subst hfs
  obtain ⟨he1, he2, _⟩ := set_exception_fields fs
    ⟨etFuncNotFound, "RPC error: Called function: \"" ++ nm ++ "\" not found"⟩
  refine ⟨?_, ?_, ?_⟩
  · simp [dispatch, Hb, get_func_name, Hfn, getStringJ, Hmiss]
  · have hobj : ∃ gs, set_exception (JVal.jobj fs)
        ⟨etFuncNotFound, "RPC error: Called function: \"" ++ nm ++ "\" not found"⟩ =
        .jobj gs := by
      simp [set_exception, objSet]
    obtain ⟨gs, hgs⟩ := hobj
    rw [to_bytes, from_bytes, parseBytes]
    rw [hgs] at he1 he2 ⊢
    simp [objContains, he1, he2, objGetD, exceptTypeNonzero, etFuncNotFound]
  · simp [extract_exception, he1, he2, getStringJ, getIntJ]

/-- Witness for C9: dispatching a request for the unbound name "g". -/
theorem dispatch_unknown_function_witness :
    dispatch secondOnlyTable [] (.enc (.jobj [("func_name", .jstr "g"), ("args", .jarr [])]))
      = .ok (to_bytes (set_exception (.jobj [("func_name", .jstr "g"), ("args", .jarr [])])
        ⟨etFuncNotFound, "RPC error: Called function: \"" ++ "g" ++ "\" not found"⟩), [], 0) ∧
    from_bytes (to_bytes (set_exception (.jobj [("func_name", .jstr "g"), ("args", .jarr [])])
      ⟨etFuncNotFound, "RPC error: Called function: \"" ++ "g" ++ "\" not found"⟩)) =
      some (set_exception (.jobj [("func_name", .jstr "g"), ("args", .jarr [])])
        ⟨etFuncNotFound, "RPC error: Called function: \"" ++ "g" ++ "\" not found"⟩) ∧
    extract_exception (set_exception (.jobj [("func_name", .jstr "g"), ("args", .jarr [])])
      ⟨etFuncNotFound, "RPC error: Called function: \"" ++ "g" ++ "\" not found"⟩) =
      .ok ⟨etFuncNotFound, "RPC error: Called function: \"" ++ "g" ++ "\" not found"⟩ :=
  dispatch_unknown_function secondOnlyTable [] _ _ "g"
    (by simp [from_bytes, parseBytes, objContains, objGet?, getField, isStrJ, isEmptyJ])
    (by rfl)
    (by simp [secondOnlyTable, server_bind, table_emplace, tableFind])

/-! ## Claim C1

Handlers registered by `bind`/`bind_cached` catch every `rpc_exception` and
encode it, and every failure inside them is an `rpc_exception`; but
`dispatch` itself calls `get_func_name` outside any try/catch.  `from_bytes`
accepts exception-carrying objects without validating `func_name`, so a
request such as `{except_type: 1, err_mesg: "x", func_name: 0}` makes the
json-to-string conversion inside `get_func_name` raise a `type_error` that
propagates to the caller of `dispatch`. -/

/-- A failing `wrapDeser` always carries an `rpc_exception`. -/
theorem wrapDeser_error_rpc (r : Except CppErr PackedFunc) (e : CppErr)
    (h : wrapDeser r = .error e) : ∃ re, e = CppErr.rpc re := by
  cases r with
  | ok p => simp [wrapDeser] at h
  | error err =>
    cases err with
    | rpc e' =>
      simp only [wrapDeser] at h
      injection h with h2
      exact ⟨e', h2.symm⟩
    | std m =>
      simp only [wrapDeser] at h
      injection h with h2
      exact ⟨⟨etDeserialization, m⟩, h2.symm⟩

/-- A failing `run_callback` always carries an `rpc_exception`. -/
theorem run_callback_error_rpc (f : Callback) (pack : PackedFunc) (e : CppErr)
    (h : run_callback f pack = .error e) : ∃ re, e = CppErr.rpc re := by
  cases hf : f pack.args with
  | error m =>
    rw [run_callback, hf] at h
    injection h with h2
    exact ⟨⟨etRemoteExec, m⟩, h2.symm⟩
  | ok res =>
    rw [run_callback, hf] at h
    simp at h

/-- `bind`-registered handlers never let an exception escape. -/
theorem bind_wrapper_total (rty : Option RType) (sig : List RType) (f : Callback)
    (obj : JVal) (c : Cache) :
    ∃ out, bind_wrapper rty sig f obj c = .ok out := by
  unfold bind_wrapper dispatch_func
  cases hd : wrapDeser (deserialize_pack rty sig obj) with
  | error e =>
    obtain ⟨re, hre⟩ := wrapDeser_error_rpc _ _ hd
    subst hre
    try simp only [hd]
    exact ⟨_, rfl⟩
  | ok pack =>
    try simp only [hd]
    cases hr : run_callback f pack with
    | error e =>
      obtain ⟨re, hre⟩ := run_callback_error_rpc _ _ _ hr
      subst hre
      try simp only [hr]
      exact ⟨_, rfl⟩
    | ok pack2 =>
      try simp only [hr]
      exact ⟨_, rfl⟩

/-- `bind_cached`-registered handlers never let an exception escape. -/
theorem cached_wrapper_total (rty : Option RType) (sig : List RType) (f : Callback)
    (obj : JVal) (c : Cache) :
    ∃ out, cached_wrapper rty sig f obj c = .ok out := by
  unfold cached_wrapper dispatch_cached_func
  cases hd : wrapDeser (deserialize_pack rty sig obj) with
  | error e =>
    obtain ⟨re, hre⟩ := wrapDeser_error_rpc _ _ hd
    subst hre
    try simp only [hd]
    exact ⟨_, rfl⟩
  | ok pack =>
    try simp only [hd]
    cases rty with
    | none =>
      cases hr : run_callback f pack with
      | error e =>
        obtain ⟨re, hre⟩ := run_callback_error_rpc _ _ _ hr
        subst hre
        try simp only [hr]
        exact ⟨_, rfl⟩
      | ok pack2 =>
        try simp only [hr]
        exact ⟨_, rfl⟩
    | some rt =>
      cases hfind : bucketFind (get_func_cache c pack.func_name) (to_bytes obj) with
      | some v =>
        try simp only [hfind]
        exact ⟨_, rfl⟩
      | none =>
        try simp only [hfind]
        cases hr : run_callback f pack with
        | error e =>
          obtain ⟨re, hre⟩ := run_callback_error_rpc _ _ _ hr
          subst hre
          try simp only [hr]
          exact ⟨_, rfl⟩
        | ok pack2 =>
          try simp only [hr]
          cases hg : pack2.get_result with
          | error e =>
            try simp only [hg]
            exact ⟨_, rfl⟩
          | ok r =>
            try simp only [hg]
            cases r with
            | some rv => exact ⟨_, rfl⟩
            | none => exact ⟨_, rfl⟩

/-- Every handler of the table was registered through `bind` or
`bind_cached`. -/
def good_table (tbl : List (String × Handler)) : Prop :=
  ∀ p ∈ tbl, (∃ rty sig f, p.2 = bind_wrapper rty sig f) ∨
    (∃ rty sig f, p.2 = cached_wrapper rty sig f)

/-- A successful table lookup yields a member of the table. -/
theorem tableFind_mem (tbl : List (String × Handler)) (nm : String) (h : Handler)
    (hf : tableFind tbl nm = some h) : (nm, h) ∈ tbl := by
  induction tbl with
  | nil => cases hf
  | cons p rest ih =>
    obtain ⟨k, h'⟩ := p
    rw [tableFind] at hf
    by_cases hk : k = nm
    · subst hk
      rw [if_pos (by simp)] at hf
      cases hf
      exact List.mem_cons_self _ _
    · rw [if_neg (by simpa using hk)] at hf
      exact List.mem_cons_of_mem _ (ih hf)

/-- Counterexample to C1: an accepted exception-carrying request whose
`func_name` field is a number makes `dispatch` raise a (non-rpc)
`type_error` to its caller instead of returning reply bytes. -/
theorem dispatch_raises_counterexample :
    dispatch [] [] (.enc (.jobj [("except_type", .jint 1), ("err_mesg", .jstr "x"),
      ("func_name", .jint 0)])) =
      .error (.std ("type must be string, but is " ++ "number")) := by
  simp [dispatch, from_bytes, parseBytes, objContains, objGet?, getField, objGetD,
    exceptTypeNonzero, get_func_name, getStringJ, type_name_j]

/-- C1 (amended): `dispatch` returns reply bytes and never raises for every
input whose bytes fail to decode, and for every input whose decoded object
carries a textual `func_name` — in particular for every request passing the
non-exception validation branch of `from_bytes`.  (The exception-object
branch of `from_bytes` does not validate `func_name`, and `dispatch` can
raise on such inputs; see the counterexample.) -/
theorem dispatch_never_raises (tbl : List (String × Handler)) (st : Cache) (b : MsgBytes)
    (Hg : good_table tbl)
    (Hname : ∀ obj, from_bytes b = some obj → ∃ s, objGetD obj "func_name" = JVal.jstr s) :
    ∃ out, dispatch tbl st b = .ok out := by
  unfold dispatch
  cases hb : from_bytes b with
  | none =>
    try simp only [hb]
    exact ⟨_, rfl⟩
  | some obj =>
    obtain ⟨s, hs⟩ := Hname obj hb
    simp only [hb, get_func_name, hs, getStringJ]
    cases hfind : tableFind tbl s with
    | none =>
      try simp only [hfind]
      exact ⟨_, rfl⟩
    | some h =>
      try simp only [hfind]
      rcases Hg _ (tableFind_mem tbl s h hfind) with ⟨rty, sig, f, hw⟩ | ⟨rty, sig, f, hw⟩
      · obtain ⟨⟨o2, c2, n2⟩, hout⟩ := bind_wrapper_total rty sig f obj st
        replace hw : h = bind_wrapper rty sig f := hw
        rw [hw, hout]
        exact ⟨_, rfl⟩
      · obtain ⟨⟨o2, c2, n2⟩, hout⟩ := cached_wrapper_total rty sig f obj st
        replace hw : h = cached_wrapper rty sig f := hw
        rw [hw, hout]
        exact ⟨_, rfl⟩

/-! ## Claim C3

`parse_args` raises `Argument count mismatch` only when the shared counter
reaches the end of the args array — i.e. when there are too FEW elements.
A per-element `validate_arg` failure raises the typed mismatch.  (Extra
trailing elements are ignored; see the counterexample.) -/

/-- A reply produced by `set_exception` with a nonzero kind decodes back to
the same object, and `extract_exception` recovers the kind and message. -/
theorem set_exception_decode (fs : List (String × JVal)) (e : RpcErr) :
    from_bytes (to_bytes (set_exception (.jobj fs) e)) = some (set_exception (.jobj fs) e) ∧
    extract_exception (set_exception (.jobj fs) e) = .ok e := by
  obtain ⟨he1, he2, _⟩ := set_exception_fields fs e
  have hobj : set_exception (JVal.jobj fs) e =
      .jobj (setField (setField fs "except_type" (.jint e.ty)) "err_mesg" (.jstr e.msg)) := by
    simp [set_exception, objSet]
  constructor
  · rw [to_bytes, from_bytes, parseBytes]
    rw [hobj] at he1 he2 ⊢
    simp [objContains, he1, he2, objGetD, exceptTypeNonzero]
  · simp [extract_exception, he1, he2, getStringJ, getIntJ]

/-- On an array input, a successful `parse_args` advances the counter by
exactly one (the post-increment of `index`). -/
theorem parse_args_arr_counter (t : RType) (xs : List JVal) (c : Nat) (v : RVal) (c' : Nat)
    (h : parse_args t (.jarr xs) c = .ok (v, c')) : c' = c + 1 := by
  simp only [parse_args] at h
  by_cases hb : c ≥ sizeJ (.jarr xs)
  · rw [if_pos hb] at h; cases h
  · rw [if_neg hb] at h
    cases hp : parse_arg t (xs.getD c .jnull) with
    | error e => rw [hp] at h; cases h
    | ok v2 => rw [hp] at h; cases h; rfl

/-- Too few arguments make the argument-tuple parse fail: once the counter
would run past the array, `parse_args` raises `Argument count mismatch`
(kind `SignatureMismatch`). -/
theorem parseSig_short_err (sig : List RType) (argl : List JVal) :
    ∀ c, c ≤ argl.length → argl.length < c + sig.length →
    ∃ m, parseSig sig (.jarr argl) c = .error m := by
  induction sig with
  | nil =>
    intro c h1 h2
    simp only [List.length_nil, Nat.add_zero] at h2
    omega
  | cons t rest ih =>
    intro c h1 h2
    by_cases hc : c = argl.length
    · refine ⟨"Argument count mismatch", ?_⟩
      have hb : c ≥ sizeJ (.jarr argl) := by rw [sizeJ]; omega
      simp only [parseSig, parse_args, if_pos hb]
    · have hlt : c < argl.length := by omega
      cases hp : parse_args t (.jarr argl) c with
      | error e => exact ⟨e, by simp only [parseSig, hp]⟩
      | ok vc =>
        obtain ⟨v, c'⟩ := vc
        have hc' : c' = c + 1 := parse_args_arr_counter _ _ _ _ _ hp
        subst hc'
        obtain ⟨m, hm⟩ := ih (c + 1) (by omega)
          (by simp only [List.length_cons] at h2; omega)
        exact ⟨m, by simp only [parseSig, hp, hm]⟩

/-- A `validate_arg` failure at any expected-parameter position makes the
argument-tuple parse fail. -/
theorem parseSig_invalid_err (sig : List RType) (argl : List JVal) :
    ∀ c i, ∀ hi : i < sig.length, ∀ hj : c + i < argl.length,
    validate_arg (sig.get ⟨i, hi⟩) (argl.get ⟨c + i, hj⟩) = false →
    ∃ m, parseSig sig (.jarr argl) c = .error m := by
  induction sig with
  | nil =>
    intro c i hi
    simp at hi
  | cons t rest ih =>
    intro c i hi hj hv
    cases hp : parse_args t (.jarr argl) c with
    | error e => exact ⟨e, by simp only [parseSig, hp]⟩
    | ok vc =>
      obtain ⟨v, c'⟩ := vc
      have hc' : c' = c + 1 := parse_args_arr_counter _ _ _ _ _ hp
      subst hc'
      cases i with
      | zero =>
        exfalso
        have hcl : c < argl.length := by omega
        have hget : argl.getD c .jnull = argl.get ⟨c, hcl⟩ := by
          simp [List.getD]
          rw [List.getElem?_eq_getElem hcl]
          rfl
        have hv0 : validate_arg t (argl.get ⟨c, hcl⟩) = false := hv
        have hpe : parse_arg t (argl.getD c .jnull) =
            .error (mismatch_string t (argl.getD c .jnull)) := by
          simp only [parse_arg.eq_def]
          rw [hget, if_neg (by rw [hv0]; simp)]
        simp only [parse_args, hpe] at hp
        by_cases hb : c ≥ sizeJ (.jarr argl)
        · rw [if_pos hb] at hp; cases hp
        · rw [if_neg hb] at hp; cases hp
      | succ i' =>
        have hi' : i' < rest.length := by simpa using hi
        have hj' : (c + 1) + i' < argl.length := by omega
        have hfin : (⟨c + (i' + 1), hj⟩ : Fin argl.length) = ⟨(c + 1) + i', hj'⟩ := by
          apply Fin.ext
          simp
          omega
        rw [hfin] at hv
        have hv' : validate_arg (rest.get ⟨i', hi'⟩) (argl.get ⟨(c + 1) + i', hj'⟩) = false := hv
        obtain ⟨m, hm⟩ := ih (c + 1) i' hi' hj' hv'
        exact ⟨m, by simp only [parseSig, hp, hm]⟩

/-- C3 (amended): for a registered handler of arity n, a well-formed encoded
request whose args sequence is SHORTER than n, or contains an element at a
parameter position failing `validate_arg` for the expected type, is answered
with a reply whose decoded error kind is `SignatureMismatch`.  (A request
with MORE than n args is not rejected; see the counterexample.) -/
theorem dispatch_sig_mismatch (tbl : List (String × Handler)) (st : Cache)
    (obj : JVal) (nm : String) (rty : Option RType) (sig : List RType) (f : Callback)
    (argl : List JVal)
    (Hwf : from_bytes (.enc obj) = some obj)
    (Hfn : objGetD obj "func_name" = JVal.jstr nm)
    (Htbl : tableFind tbl nm = some (bind_wrapper rty sig f))
    (Hargs : objGetD obj "args" = JVal.jarr argl)
    (Hbad : argl.length < sig.length ∨ ∃ i, ∃ hi : i < sig.length, ∃ hj : i < argl.length,
      validate_arg (sig.get ⟨i, hi⟩) (argl.get ⟨i, hj⟩) = false) :
    ∃ robj m, dispatch tbl st (.enc obj) = .ok (to_bytes robj, st, 0) ∧
      from_bytes (to_bytes robj) = some robj ∧
      extract_exception robj = .ok ⟨etSignatureMismatch, m⟩ := by
  have hperr : ∃ m, parseSig sig (.jarr argl) 0 = .error m := by
    rcases Hbad with h | ⟨i, hi, hj, hv⟩
    · exact parseSig_short_err sig argl 0 (by omega) (by omega)
    · exact parseSig_invalid_err sig argl 0 i hi (by omega) (by simpa using hv)
  obtain ⟨m, hm⟩ := hperr
  have hdes : deserialize_pack rty sig obj = .error (.rpc ⟨etSignatureMismatch, m⟩) := by
    simp only [deserialize_pack, Hargs, hm]
  have hdf : dispatch_func rty sig f obj = (0, .error (.rpc ⟨etSignatureMismatch, m⟩)) := by
    unfold dispatch_func
    simp only [hdes, wrapDeser]
  have hw : bind_wrapper rty sig f obj st =
      .ok (set_exception obj ⟨etSignatureMismatch, m⟩, st, 0) := by
    unfold bind_wrapper
    simp only [hdf]
  obtain ⟨fs, hfs⟩ := from_bytes_isObj _ _ Hwf
  subst hfs
  obtain ⟨hdec, hext⟩ := set_exception_decode fs ⟨etSignatureMismatch, m⟩
  refine ⟨set_exception (.jobj fs) ⟨etSignatureMismatch, m⟩, m, ?_, hdec, hext⟩
  unfold dispatch
  simp only [Hwf, get_func_name, Hfn, getStringJ, Htbl, hw]

/-- A server with a two-int-argument handler bound as "sum2". -/
def sumTable : List (String × Handler) :=
  [("sum2", bind_wrapper (some .rint) [.rint, .rint]
    (fun args => match args with
      | [.vint a, .vint b] => .ok (some (.vint (a + b)))
      | _ => .error "bad args"))]

/-- Witness for the amended C3: a one-argument request to the two-argument
handler is answered with a `SignatureMismatch` reply. -/
theorem dispatch_sig_mismatch_witness :
    ∃ robj m, dispatch sumTable []
      (.enc (.jobj [("func_name", .jstr "sum2"), ("args", .jarr [.jint 1])])) =
        .ok (to_bytes robj, [], 0) ∧
      from_bytes (to_bytes robj) = some robj ∧
      extract_exception robj = .ok ⟨etSignatureMismatch, m⟩ :=
  dispatch_sig_mismatch sumTable [] _ "sum2" (some .rint) [.rint, .rint] _ [.jint 1]
    (by simp [from_bytes, parseBytes, objContains, objGet?, getField, isStrJ, isEmptyJ])
    (by rfl)
    (by rfl)
    (by rfl)
    (Or.inl (by decide))

/-- Counterexample to C3 as stated: a request with MORE arguments than the
handler arity (three args for the two-argument "sum2") is not rejected: the
extra argument is silently ignored, the callback runs, and the reply is a
successful one carrying no error field at all (in particular its decoded
error kind is not `SignatureMismatch`). -/
theorem dispatch_extra_args_counterexample :
    dispatch sumTable []
      (.enc (.jobj [("func_name", .jstr "sum2"), ("args", .jarr [.jint 1, .jint 2, .jint 3])])) =
      .ok (.enc (.jobj [("func_name", .jstr "sum2"), ("args", .jarr [.jint 1, .jint 2]),
        ("result", .jint 3)]), [], 1) ∧
    objContains (.jobj [("func_name", .jstr "sum2"), ("args", .jarr [.jint 1, .jint 2]),
      ("result", .jint 3)]) "except_type" = false := by
  constructor
  · simp [sumTable, dispatch, from_bytes, parseBytes, objContains, objGet?, getField,
      isStrJ, isEmptyJ, get_func_name, getStringJ, objGetD, tableFind, bind_wrapper,
      dispatch_func, wrapDeser, deserialize_pack, parseSig, parse_args, parse_arg,
      validate_arg, sizeJ, run_callback, serialize_pack, PackedFunc.toBool, empty_object,
      objSet, setField, push_arg, pushList, to_bytes, etNone]
  · simp [objContains, objGet?, getField]

/-! ## Round-trip lemmas (claims C2 and C8)

`push_arg` followed by `parse_arg` is the identity on well-typed values of
flat types (scalars and containers of scalars).  Nested containers do NOT
round-trip: the container branch of `parse_arg` hands each element to
`parse_args`, which for an array element indexes INTO the element (the TODO
in the source), so the inner parse sees a scalar where it expects an
array. -/

/-- Scalar round-trip for `push_arg`/`parse_arg`. -/
theorem parse_push_scalar (t : RType) (v : RVal)
    (hs : scalarType t = true) (ht : hasType v t = true) :
    parse_arg t (push_arg v) = .ok v := by
  cases t <;> cases v <;>
    simp_all [scalarType, hasType, push_arg, parse_arg, validate_arg]

/-- Element-loop round-trip for containers of scalars: scalar elements never
advance the shared counter, which therefore stays at 0. -/
theorem parseElems_push (et : RType) (hs : scalarType et = true) :
    ∀ xs : List RVal, allHasType xs et = true →
    parseElems et (pushList xs) 0 = .ok xs := by
  intro xs
  induction xs with
  | nil => intro _; simp [pushList, parseElems]
  | cons x rest ih =>
    intro hall
    rw [allHasType] at hall
    have hx : hasType x et = true := by
      cases hhx : hasType x et
      · rw [hhx] at hall; simp at hall
      · rfl
    have hrest : allHasType rest et = true := by
      rw [hx] at hall; simpa using hall
    have hpa : parse_args et (push_arg x) 0 = .ok (x, 0) := by
      have hpp := parse_push_scalar et x hs hx
      cases et <;> cases x <;> simp_all [scalarType, hasType] <;>
        simp_all [parse_args, push_arg, sizeJ]
    simp only [pushList, parseElems, hpa, ih hrest]

/-- Round-trip for `push_arg`/`parse_arg` on every flat type. -/
theorem parse_push_flat (t : RType) (v : RVal)
    (hf : flatType t = true) (ht : hasType v t = true) :
    parse_arg t (push_arg v) = .ok v := by
  cases t with
  | rlist et =>
    cases v with
    | vlist xs =>
      have hs : scalarType et = true := by simpa [flatType] using hf
      have hall : allHasType xs et = true := by simpa [hasType] using ht
      simp only [push_arg, parse_arg.eq_def]
      rw [if_pos (by simp [validate_arg])]
      simp [parseElems_push et hs xs hall]
    | vbool b => simp [hasType] at ht
    | vint n => simp [hasType] at ht
    | vfloat p => simp [hasType] at ht
    | vstr s => simp [hasType] at ht
  | rbool => exact parse_push_scalar _ _ (by rfl) ht
  | rint => exact parse_push_scalar _ _ (by rfl) ht
  | rfloat => exact parse_push_scalar _ _ (by rfl) ht
  | rstr => exact parse_push_scalar _ _ (by rfl) ht

/-- Top-level argument-tuple round-trip: parsing the pushed args of a
well-typed flat-typed tuple from position `pre.length` of
`pre ++ pushList args` recovers the tuple. -/
theorem parseSig_push (sig : List RType) (args : List RVal)
    (Hargs : List.Forall₂ (fun v t => hasType v t = true) args sig)
    (Hflat : ∀ t ∈ sig, flatType t = true) :
    ∀ pre : List JVal,
    parseSig sig (.jarr (pre ++ pushList args)) pre.length = .ok args := by
  induction Hargs with
  | nil => intro pre; simp [pushList, parseSig]
  | @cons v t vs ts hvt hrest ih =>
    intro pre
    have hflat_t : flatType t = true := Hflat t (by simp)
    have hpa : parse_args t (.jarr (pre ++ pushList (v :: vs))) pre.length =
        .ok (v, pre.length + 1) := by
      have hlen : pre.length < (pre ++ pushList (v :: vs)).length := by
        simp [pushList]
      simp only [parse_args]
      rw [if_neg (by simp [sizeJ, pushList])]
      have hget : (pre ++ pushList (v :: vs)).getD pre.length .jnull = push_arg v := by
        simp [List.getD, pushList]
        rw [List.getElem_append_right (Nat.le_refl pre.length)]
        simp
      rw [hget, parse_push_flat t v hflat_t hvt]
    simp only [parseSig, hpa]
    have hrw : pre ++ pushList (v :: vs) = (pre ++ [push_arg v]) ++ pushList vs := by
      simp [pushList]
    have hlen2 : pre.length + 1 = (pre ++ [push_arg v]).length := by simp
    rw [hrw, hlen2, ih (fun t ht => Hflat t (by simp [ht])) (pre ++ [push_arg v])]

/-! ## Claim C8 -/

/-- Counterexample to C8 as stated: an error pack (kind `RemoteExecution`,
message "boom") whose argument is a nested container (a list of lists of
ints — a supported argument type per the adapter contract) does NOT
round-trip: `deserialize_pack` parses the argument tuple before the error
fields, and the container branch of `parse_arg` calls `parse_args` on each
element, which indexes INTO the inner array (the TODO in the source).
Deserialization therefore raises `SignatureMismatch` — a different kind
with a different message — and no pack carrying the original kind and
message is ever produced. -/
theorem error_pack_roundtrip_counterexample :
    deserialize_pack (some .rint) [.rlist (.rlist .rint)]
      (serialize_pack ⟨some .rint, "f", [.vlist [.vlist [.vint 2]]],
        Option.none, etRemoteExec, "boom"⟩) =
      .error (.rpc ⟨etSignatureMismatch, mismatch_string (.rlist .rint) (.jint 2)⟩) ∧
    etSignatureMismatch ≠ etRemoteExec ∧
    mismatch_string (.rlist .rint) (.jint 2) ≠ "boom" := by
  refine ⟨?_, by decide, by simp [mismatch_string, rtype_name, type_name_j]⟩
  simp [serialize_pack, PackedFunc.toBool, etNone, etRemoteExec, empty_object,
    objSet, setField, push_arg, pushList, deserialize_pack, objGetD, objGet?,
    getField, parseSig, parse_args, parse_arg, parseElems, validate_arg, sizeJ,
    mismatch_string, rtype_name, type_name_j, etSignatureMismatch]

/-- C8 (amended): a pack carrying error kind `k` (any enumerator other than
`None`) and message `m`, with FLAT-typed arguments (scalars and containers
of scalars), serialized and deserialized through the njson adapter, yields
a pack whose `get_result` raises an error of kind `k` with message `m`.
Error packs with nested-container arguments do not round-trip (see the
counterexample): the argument tuple is parsed before the error fields, so
deserialization raises `SignatureMismatch` and the carried kind and message
are lost. -/
theorem error_pack_roundtrip (k : Int) (m fn : String) (rty : Option RType)
    (sig : List RType) (args : List RVal)
    (Hk1 : 1 ≤ k) (Hk9 : k ≤ 9)
    (Hargs : List.Forall₂ (fun v t => hasType v t = true) args sig)
    (Hflat : ∀ t ∈ sig, flatType t = true) :
    deserialize_pack rty sig (serialize_pack ⟨rty, fn, args, Option.none, k, m⟩) =
      .ok ⟨rty, fn, args, Option.none, k, m⟩ ∧
    (PackedFunc.mk rty fn args Option.none k m).get_result = .error ⟨k, m⟩ := by
  have hk0 : k ≠ 0 := by omega
  have hb : PackedFunc.toBool ⟨rty, fn, args, Option.none, k, m⟩ = false := by
    cases rty <;> simp [PackedFunc.toBool, etNone, hk0]
  have hser : serialize_pack ⟨rty, fn, args, Option.none, k, m⟩ =
      .jobj [("func_name", .jstr fn), ("args", .jarr (pushList args)),
        ("except_type", .jint k), ("err_mesg", .jstr m)] := by
    simp [serialize_pack, hb, empty_object, objSet, setField]
  have hsig := parseSig_push sig args Hargs Hflat []
  simp only [List.nil_append, List.length_nil] at hsig
  constructor
  · rw [hser]
    cases rty with
    | none =>
      simp [deserialize_pack, objGetD, objGet?, getField, hsig, getStringJ,
        objContains, getIntJ]
    | some rt =>
      simp [deserialize_pack, objGetD, objGet?, getField, hsig, getStringJ,
        objContains, getIntJ]
  · have hb2 := hb
    simp only [PackedFunc.get_result, hb2, Bool.false_eq_true, if_false]
    rw [throw_ex, if_pos ⟨Hk1, Hk9⟩]

/-- Witness for C8 with kind `RemoteExecution`, message "boom", and a
one-int argument tuple. -/
theorem error_pack_roundtrip_witness :
    deserialize_pack (some .rint) [.rint]
      (serialize_pack ⟨some .rint, "f", [.vint 4], Option.none, etRemoteExec, "boom"⟩) =
      .ok ⟨some .rint, "f", [.vint 4], Option.none, etRemoteExec, "boom"⟩ ∧
    (PackedFunc.mk (some .rint) "f" [.vint 4] Option.none etRemoteExec "boom").get_result =
      .error ⟨etRemoteExec, "boom"⟩ :=
  error_pack_roundtrip etRemoteExec "boom" "f" (some .rint) [.rint] [.vint 4]
    (by decide) (by decide)
    (List.Forall₂.cons rfl List.Forall₂.nil)
    (by decide)

/-! ## Claim C2 -/

/-- Counterexample to C2 as stated: a successful pack whose argument is a
nested container (a list of lists of ints — a supported argument type per
the adapter contract) does NOT round-trip: `parse_arg` on the outer
container calls `parse_args` on each element, which indexes INTO the inner
array (the TODO in the source), so deserialization raises
`SignatureMismatch` instead of returning the pack. -/
theorem pack_roundtrip_counterexample :
    deserialize_pack (some .rint) [.rlist (.rlist .rint)]
      (serialize_pack ⟨some .rint, "f", [.vlist [.vlist [.vint 1]]],
        some (.vint 0), etNone, ""⟩) =
      .error (.rpc ⟨etSignatureMismatch, mismatch_string (.rlist .rint) (.jint 1)⟩) := by
  simp [serialize_pack, PackedFunc.toBool, etNone, empty_object, objSet, setField,
    push_arg, pushList, deserialize_pack, objGetD, objGet?, getField, parseSig,
    parse_args, parse_arg, parseElems, validate_arg, sizeJ, mismatch_string,
    rtype_name, type_name_j, etSignatureMismatch]

/-- C2 (amended): for the njson adapter, on every successful PackedCall
whose argument and result types are flat supported types (scalars and
containers of scalars — nested containers do not round-trip, see the
counterexample), `deserialize_pack` after `serialize_pack` preserves the
function name, every argument, and the result, and serializing the
round-tripped pack again yields byte-equal encoding. -/
theorem pack_roundtrip (sig : List RType) (p : PackedFunc)
    (H0 : p.except_type = etNone)
    (Hargs : List.Forall₂ (fun v t => hasType v t = true) p.args sig)
    (Hflat : ∀ t ∈ sig, flatType t = true)
    (Hvoid : p.rty = Option.none → p.result = Option.none)
    (Hres : ∀ rt, p.rty = some rt → flatType rt = true ∧
      ∃ r, p.result = some r ∧ hasType r rt = true) :
    ∃ p2, deserialize_pack p.rty sig (serialize_pack p) = .ok p2 ∧
      p2.func_name = p.func_name ∧ p2.args = p.args ∧ p2.result = p.result ∧
      p2.rty = p.rty ∧
      to_bytes (serialize_pack p2) = to_bytes (serialize_pack p) := by
  obtain ⟨rty, fn, args, res, et, msg⟩ := p
  replace H0 : et = etNone := H0
  subst H0
  replace Hargs : List.Forall₂ (fun v t => hasType v t = true) args sig := Hargs
  have hsig := parseSig_push sig args Hargs Hflat []
  simp only [List.nil_append, List.length_nil] at hsig
  cases rty with
  | none =>
    replace Hvoid : res = Option.none := Hvoid rfl
    subst Hvoid
    have hb : PackedFunc.toBool ⟨Option.none, fn, args, Option.none, etNone, msg⟩ = true := by
      simp [PackedFunc.toBool]
    have hser : serialize_pack ⟨Option.none, fn, args, Option.none, etNone, msg⟩ =
        .jobj [("func_name", .jstr fn), ("args", .jarr (pushList args))] := by
      simp [serialize_pack, hb, empty_object, objSet, setField]
    refine ⟨⟨Option.none, fn, args, Option.none, etNone, ""⟩, ?_, rfl, rfl, rfl, rfl, ?_⟩
    · rw [hser]
      simp [deserialize_pack, objGetD, objGet?, getField, hsig, getStringJ, objContains]
    · have hb2 : PackedFunc.toBool ⟨Option.none, fn, args, Option.none, etNone, ""⟩ = true := by
        simp [PackedFunc.toBool]
      have hser2 : serialize_pack ⟨Option.none, fn, args, Option.none, etNone, ""⟩ =
          .jobj [("func_name", .jstr fn), ("args", .jarr (pushList args))] := by
        simp [serialize_pack, hb2, empty_object, objSet, setField]
      rw [hser, hser2]
  | some rt =>
    obtain ⟨hflat_rt, r, hres, htr⟩ := Hres rt rfl
    replace hres : res = some r := hres
    subst hres
    have hb : PackedFunc.toBool ⟨some rt, fn, args, some r, etNone, msg⟩ = true := by
      simp [PackedFunc.toBool]
    have hser : serialize_pack ⟨some rt, fn, args, some r, etNone, msg⟩ =
        .jobj [("func_name", .jstr fn), ("args", .jarr (pushList args)),
          ("result", push_arg r)] := by
      simp [serialize_pack, hb, empty_object, objSet, setField]
    have hnn : isNullJ (push_arg r) = false := by
      cases r <;> simp [push_arg, isNullJ]
    have hpr : parse_arg rt (push_arg r) = .ok r := parse_push_flat rt r hflat_rt htr
    refine ⟨⟨some rt, fn, args, some r, etNone, ""⟩, ?_, rfl, rfl, rfl, rfl, ?_⟩
    · rw [hser]
      simp [deserialize_pack, objGetD, objGet?, getField, hsig, getStringJ, objContains,
        hnn, hpr]
    · have hb2 : PackedFunc.toBool ⟨some rt, fn, args, some r, etNone, ""⟩ = true := by
        simp [PackedFunc.toBool]
      have hser2 : serialize_pack ⟨some rt, fn, args, some r, etNone, ""⟩ =
          .jobj [("func_name", .jstr fn), ("args", .jarr (pushList args)),
            ("result", push_arg r)] := by
        simp [serialize_pack, hb2, empty_object, objSet, setField]
      rw [hser, hser2]

/-- Witness for the amended C2 on a concrete successful pack with an int,
a string, and a flat list argument. -/
theorem pack_roundtrip_witness :
    ∃ p2, deserialize_pack (some .rint) [.rint, .rstr, .rlist .rint]
      (serialize_pack ⟨some .rint, "f", [.vint 2, .vstr "a", .vlist [.vint 1, .vint 3]],
        some (.vint 5), etNone, ""⟩) = .ok p2 ∧
      p2.func_name = (PackedFunc.mk (some .rint) "f"
        [.vint 2, .vstr "a", .vlist [.vint 1, .vint 3]] (some (.vint 5)) etNone "").func_name ∧
      p2.args = (PackedFunc.mk (some .rint) "f"
        [.vint 2, .vstr "a", .vlist [.vint 1, .vint 3]] (some (.vint 5)) etNone "").args ∧
      p2.result = (PackedFunc.mk (some .rint) "f"
        [.vint 2, .vstr "a", .vlist [.vint 1, .vint 3]] (some (.vint 5)) etNone "").result ∧
      p2.rty = (PackedFunc.mk (some .rint) "f"
        [.vint 2, .vstr "a", .vlist [.vint 1, .vint 3]] (some (.vint 5)) etNone "").rty ∧
      to_bytes (serialize_pack p2) = to_bytes (serialize_pack
        ⟨some .rint, "f", [.vint 2, .vstr "a", .vlist [.vint 1, .vint 3]],
          some (.vint 5), etNone, ""⟩) :=
  pack_roundtrip [.rint, .rstr, .rlist .rint]
    ⟨some .rint, "f", [.vint 2, .vstr "a", .vlist [.vint 1, .vint 3]],
      some (.vint 5), etNone, ""⟩
    rfl
    (List.Forall₂.cons rfl (List.Forall₂.cons rfl (List.Forall₂.cons rfl List.Forall₂.nil)))
    (by decide)
    (fun h => by cases h)
    (fun rt h => by
      cases h
      exact ⟨rfl, .vint 5, rfl, rfl⟩)

/-! ## Claim C6 -/

/-- C6: after a successful `call_func`, every argument passed as a
non-const, non-pointer mutable reference holds exactly the value the server
placed in the corresponding slot of the reply pack, while const-reference
and string-literal (string-decayed, hence const-reference) arguments are
left unchanged by the copy-back step.  (Arguments passed by value are
materialized temporaries with no caller-observable object after the call,
so they carry no slot here.) -/
theorem call_func_copy_back (send : MsgBytes → Except String Unit)
    (receive : Unit → Except String MsgBytes)
    (rty : Option RType) (sig : List RType) (nm : String)
    (cargs : List (ArgKind × RVal)) (rb : MsgBytes) (robj : JVal) (p : PackedFunc)
    (res : Option RVal) (newVals : List RVal) (i : Nat)
    (Hrecv : receive () = .ok rb)
    (Hfb : from_bytes rb = some robj)
    (Hdes : deserialize_pack rty sig robj = .ok p)
    (Hcall : call_func send receive rty sig nm cargs = .ok (res, newVals))
    (hi : i < cargs.length)
    (hp : i < p.args.length) :
    ((cargs.get ⟨i, hi⟩).1 = ArgKind.mutRef →
      newVals.getD i (.vbool false) = p.args.get ⟨i, hp⟩) ∧
    ((cargs.get ⟨i, hi⟩).1 ≠ ArgKind.mutRef →
      newVals.getD i (.vbool false) = (cargs.get ⟨i, hi⟩).2) := by
  unfold call_func at Hcall
  cases hsend : send (to_bytes (serialize_pack
      ⟨rty, nm, cargs.map (·.2), Option.none, etNone, ""⟩)) with
  | error m => rw [hsend] at Hcall; cases Hcall
  | ok u =>
    simp only [hsend, Hrecv, Hfb, Hdes, wrapDeser] at Hcall
    cases hg : p.get_result with
    | error e => rw [hg] at Hcall; cases Hcall
    | ok r =>
      rw [hg] at Hcall
      injection Hcall with Hpair
      injection Hpair with hres hnew
      subst hnew
      have hlen : i < (tuple_bind cargs p.args).length := by
        simp only [tuple_bind, List.length_zipWith]
        omega
      have hget : (tuple_bind cargs p.args).getD i (.vbool false) =
          copy_back_one (cargs.get ⟨i, hi⟩).1 (cargs.get ⟨i, hi⟩).2 (p.args.get ⟨i, hp⟩) := by
        rw [List.getD_eq_getElem _ _ hlen]
        simp only [tuple_bind]
        rw [List.getElem_zipWith]
        rfl
      rw [hget]
      constructor
      · intro hk
        rw [hk, copy_back_one]
      · intro hk
        cases hkind : (cargs.get ⟨i, hi⟩).1 with
        | mutRef => exact absurd hkind hk
        | constRef => rw [copy_back_one]
        | strLit => rw [copy_back_one]

/-- The reply a server produces for the void call of the copy-back
witness: the mutable vector argument came back incremented, the second
argument unchanged. -/
def copyBackReply : JVal :=
  .jobj [("func_name", .jstr "AddOneToEachRef"),
    ("args", .jarr [.jarr [.jint 2, .jint 3, .jint 4], .jint 7])]

/-- The caller argument slots of the copy-back witness: a mutable list
reference and a const int reference. -/
def copyBackCArgs : List (ArgKind × RVal) :=
  [(.mutRef, .vlist [.vint 1, .vint 2, .vint 3]), (.constRef, .vint 7)]

/-- The reply pack of the copy-back witness. -/
def copyBackPack : PackedFunc :=
  ⟨Option.none, "AddOneToEachRef", [.vlist [.vint 2, .vint 3, .vint 4], .vint 7],
    Option.none, etNone, ""⟩

/-- The caller argument values after the copy-back witness call. -/
def copyBackNew : List RVal := [.vlist [.vint 2, .vint 3, .vint 4], .vint 7]

/-- Witness for C6: a client call with a mutable list reference and a
const int observes, at slot 0, the server-incremented list. -/
theorem call_func_copy_back_witness :
    ((copyBackCArgs.get ⟨0, by decide⟩).1 = ArgKind.mutRef →
      copyBackNew.getD 0 (.vbool false) = copyBackPack.args.get ⟨0, by decide⟩) ∧
    ((copyBackCArgs.get ⟨0, by decide⟩).1 ≠ ArgKind.mutRef →
      copyBackNew.getD 0 (.vbool false) = (copyBackCArgs.get ⟨0, by decide⟩).2) :=
  call_func_copy_back (fun _ => .ok ()) (fun _ => .ok (.enc copyBackReply))
    Option.none [.rlist .rint, .rint] "AddOneToEachRef" copyBackCArgs
    (.enc copyBackReply) copyBackReply copyBackPack Option.none copyBackNew 0
    rfl
    (by simp [copyBackReply, from_bytes, parseBytes, objContains, objGet?, getField,
      isStrJ, isEmptyJ])
    (by simp [copyBackReply, copyBackPack, deserialize_pack, objGetD, objGet?, getField,
      parseSig, parse_args, parse_arg, parseElems, validate_arg, sizeJ, getStringJ,
      objContains])
    (by simp [call_func, copyBackReply, copyBackCArgs, copyBackNew, from_bytes,
      parseBytes, objContains, objGet?, getField, isStrJ, isEmptyJ, wrapDeser,
      deserialize_pack, objGetD, parseSig, parse_args, parse_arg, parseElems,
      validate_arg, sizeJ, getStringJ, PackedFunc.get_result, PackedFunc.toBool, etNone,
      tuple_bind, copy_back_one, serialize_pack, empty_object, objSet, setField,
      push_arg, pushList, to_bytes])
    (by decide) (by decide)

/-! ## Claim C5

Helper lemmas: reflexivity of the byte-equality used for cache keys, and
the insert/find correspondence of the per-function cache. -/

mutual

/-- `jvalBeq` is reflexive. -/
theorem jvalBeq_refl : ∀ j : JVal, jvalBeq j j = true
  | .jnull => rfl
  | .jbool b => by simp [jvalBeq]
  | .jint n => by simp [jvalBeq]
  | .jfloat p => by simp [jvalBeq]
  | .jstr s => by simp [jvalBeq]
  | .jarr xs => by rw [jvalBeq]; exact jvalListBeq_refl xs
  | .jobj fs => by rw [jvalBeq]; exact jvalFieldsBeq_refl fs

/-- `jvalListBeq` is reflexive. -/
theorem jvalListBeq_refl : ∀ xs : List JVal, jvalListBeq xs xs = true
  | [] => rfl
  | x :: rest => by
    rw [jvalListBeq, jvalBeq_refl x, jvalListBeq_refl rest]
    rfl

/-- `jvalFieldsBeq` is reflexive. -/
theorem jvalFieldsBeq_refl : ∀ fs : List (String × JVal), jvalFieldsBeq fs fs = true
  | [] => rfl
  | (k, v) :: rest => by
    rw [jvalFieldsBeq, jvalBeq_refl v, jvalFieldsBeq_refl rest]
    simp

end

/-- Byte equality is reflexive. -/
theorem bytesBeq_refl (b : MsgBytes) : bytesBeq b b = true := by
  cases b with
  | enc j => simpa [bytesBeq] using jvalBeq_refl j
  | garbage i => simp [bytesBeq]

/-- Finding a just-inserted cache entry returns its value. -/
theorem bucketFind_insert (bkt : List (MsgBytes × RVal)) (k : MsgBytes) (v : RVal) :
    bucketFind (bucketInsert bkt k v) k = some v := by
  induction bkt with
  | nil => simp [bucketInsert, bucketFind, bytesBeq_refl]
  | cons e rest ih =>
    obtain ⟨k', v'⟩ := e
    by_cases hk : bytesBeq k' k = true
    · simp [bucketInsert, bucketFind, hk]
    · simp only [bucketInsert, bucketFind]
      rw [if_neg (by simpa using hk), bucketFind, if_neg (by simpa using hk)]
      exact ih

/-- Writing into a named bucket updates exactly that bucket. -/
theorem get_func_cache_insert (c : Cache) (nm : String) (k : MsgBytes) (v : RVal) :
    get_func_cache (cache_insert c nm k v) nm = bucketInsert (get_func_cache c nm) k v := by
  induction c with
  | nil => simp [cache_insert, get_func_cache]
  | cons e rest ih =>
    obtain ⟨nm', bkt⟩ := e
    by_cases hk : nm' = nm
    · subst hk
      simp [cache_insert, get_func_cache]
    · simp only [cache_insert, get_func_cache]
      rw [if_neg (by simpa using hk), if_neg (by simpa using hk), get_func_cache,
        if_neg (by simpa using hk)]
      exact ih

/-- A successful `wrapDeser` comes from a successful deserialization. -/
theorem wrapDeser_ok (r : Except CppErr PackedFunc) (p : PackedFunc)
    (h : wrapDeser r = .ok p) : r = .ok p := by
  cases r with
  | ok q => simpa [wrapDeser] using h
  | error err =>
    cases err with
    | rpc e => simp [wrapDeser] at h
    | std m => simp [wrapDeser] at h

/-- A deserialized pack carries the requested return type, and carries no
error when the serial object has no `except_type` field. -/
theorem deserialize_pack_fields (rty : Option RType) (sig : List RType) (obj : JVal)
    (p : PackedFunc) (h : deserialize_pack rty sig obj = .ok p) :
    p.rty = rty ∧ (objContains obj "except_type" = false → p.except_type = etNone) := by
  unfold deserialize_pack at h
  cases hps : parseSig sig (objGetD obj "args") 0 with
  | error m => rw [hps] at h; cases h
  | ok args =>
    simp only [hps] at h
    cases hfn : getStringJ (objGetD obj "func_name") with
    | error e => rw [hfn] at h; cases h
    | ok fname =>
      simp only [hfn] at h
      cases rty with
      | none =>
        by_cases hc : objContains obj "except_type"
        · simp only [hc, if_true] at h
          cases hm : getStringJ (objGetD obj "err_mesg") with
          | error e => rw [hm] at h; cases h
          | ok m =>
            simp only [hm] at h
            cases ht : getIntJ (objGetD obj "except_type") with
            | error e => rw [ht] at h; cases h
            | ok t =>
              simp only [ht] at h
              cases h
              refine ⟨rfl, fun hfalse => ?_⟩
              rw [hc] at hfalse
              cases hfalse
        · simp only [hc, Bool.false_eq_true, if_false] at h
          cases h
          exact ⟨rfl, fun _ => rfl⟩
      | some rt =>
        by_cases hr : objContains obj "result" && !isNullJ (objGetD obj "result")
        · simp only [hr, if_true] at h
          cases hpr : parse_arg rt (objGetD obj "result") with
          | error m => rw [hpr] at h; cases h
          | ok r =>
            simp only [hpr] at h
            cases h
            exact ⟨rfl, fun _ => rfl⟩
        · simp only [hr, Bool.false_eq_true, if_false] at h
          by_cases hc : objContains obj "except_type"
          · simp only [hc, if_true] at h
            cases hm : getStringJ (objGetD obj "err_mesg") with
            | error e => rw [hm] at h; cases h
            | ok m =>
              simp only [hm] at h
              cases ht : getIntJ (objGetD obj "except_type") with
              | error e => rw [ht] at h; cases h
              | ok t =>
                simp only [ht] at h
                cases h
                refine ⟨rfl, fun hfalse => ?_⟩
                rw [hc] at hfalse
                cases hfalse
          · simp only [hc, Bool.false_eq_true, if_false] at h
            cases h
            exact ⟨rfl, fun _ => rfl⟩

/-- A non-exception object accepted by `from_bytes` carries a textual
`func_name`. -/
theorem from_bytes_noexc_fn (b : MsgBytes) (obj : JVal)
    (h : from_bytes b = some obj) (hne : objContains obj "except_type" = false) :
    ∃ s, objGetD obj "func_name" = JVal.jstr s := by
  cases b with
  | garbage i => simp [from_bytes, parseBytes] at h
  | enc j =>
    cases j with
    | jobj fs =>
      simp only [from_bytes, parseBytes] at h
      by_cases h1 : objContains (JVal.jobj fs) "except_type"
      · by_cases h2 : exceptTypeNonzero (objGetD (JVal.jobj fs) "except_type")
            && !objContains (JVal.jobj fs) "err_mesg"
        · simp [h1, h2] at h
        · simp [h1, h2] at h
          subst h
          rw [h1] at hne
          cases hne
      · cases hfn : objGet? (JVal.jobj fs) "func_name" with
        | none => simp [h1, hfn] at h
        | some fn =>
          by_cases h3 : !isStrJ fn || isEmptyJ fn
          · simp [h1, hfn, h3] at h
          · cases hargs : objGet? (JVal.jobj fs) "args" with
            | none => simp [h1, hfn, h3, hargs] at h
            | some a =>
              cases a <;> simp [h1, hfn, h3, hargs] at h
              subst h
              cases fn with
              | jstr s => exact ⟨s, by simp [objGetD, hfn]⟩
              | jnull => simp [isStrJ] at h3
              | jbool bb => simp [isStrJ] at h3
              | jint n => simp [isStrJ] at h3
              | jfloat pp => simp [isStrJ] at h3
              | jarr xs => simp [isStrJ] at h3
              | jobj gs => simp [isStrJ] at h3
    | jnull => simp [from_bytes, parseBytes] at h
    | jbool b' => simp [from_bytes, parseBytes] at h
    | jint n => simp [from_bytes, parseBytes] at h
    | jfloat p => simp [from_bytes, parseBytes] at h
    | jstr s => simp [from_bytes, parseBytes] at h
    | jarr xs => simp [from_bytes, parseBytes] at h

/-- C5 (amended): for a `bind_cached` binding of a non-void callback `f`
that returns normally, and a request that does not itself carry error
fields, two successive dispatches of byte-identical requests invoke `f` at
most once (the ghost counts of the two calls sum to at most 1) and return
byte-equal replies; the cache key is `to_bytes(obj)`, computed before any
invocation.  (A deterministically-raising `f` is re-invoked on every
identical request, because errors are never cached; see the
counterexample.) -/
theorem cached_dispatch_idempotent (nm : String) (rt : RType) (sig : List RType)
    (f : Callback) (st0 : Cache) (b : MsgBytes) (r1 : MsgBytes) (st1 : Cache) (n1 : Nat)
    (Hf : ∀ a, ∃ v, f a = Except.ok (some v))
    (Hclean : ∀ obj, from_bytes b = some obj → objContains obj "except_type" = false)
    (H1 : dispatch [(nm, cached_wrapper (some rt) sig f)] st0 b = .ok (r1, st1, n1)) :
    ∃ r2 st2 n2,
      dispatch [(nm, cached_wrapper (some rt) sig f)] st1 b = .ok (r2, st2, n2) ∧
      n1 + n2 ≤ 1 ∧ r2 = r1 := by
  unfold dispatch at H1 ⊢
  cases hb : from_bytes b with
  | none =>
    simp only [hb] at H1 ⊢
    cases H1
    exact ⟨_, _, _, rfl, by omega, rfl⟩
  | some obj =>
    have hne := Hclean obj hb
    obtain ⟨s, hs⟩ := from_bytes_noexc_fn b obj hb hne
    simp only [hb, get_func_name, hs, getStringJ, tableFind] at H1 ⊢
    by_cases hnm : (nm == s) = true
    · simp only [hnm, if_true] at H1 ⊢
      unfold cached_wrapper dispatch_cached_func at H1 ⊢
      cases hd : wrapDeser (deserialize_pack (some rt) sig obj) with
      | error e =>
        obtain ⟨re, hre⟩ := wrapDeser_error_rpc _ _ hd
        subst hre
        simp only [hd] at H1 ⊢
        cases H1
        exact ⟨_, _, _, rfl, by omega, rfl⟩
      | ok pack =>
        have hdes := wrapDeser_ok _ _ hd
        obtain ⟨hrty, hexc'⟩ := deserialize_pack_fields _ _ _ _ hdes
        have hexc := hexc' hne
        obtain ⟨prty, pfn, pargs, pres, pet, pmsg⟩ := pack
        replace hrty : prty = some rt := hrty
        subst hrty
        replace hexc : pet = etNone := hexc
        subst hexc
        simp only [hd] at H1 ⊢
        cases hfind : bucketFind (get_func_cache st0 pfn) (to_bytes obj) with
        | some v =>
          simp only [hfind] at H1
          cases H1
          simp only [hfind]
          exact ⟨_, _, _, rfl, by omega, rfl⟩
        | none =>
          obtain ⟨v, hv⟩ := Hf pargs
          have hrc : run_callback f ⟨some rt, pfn, pargs, pres, etNone, pmsg⟩ =
              .ok ⟨some rt, pfn, pargs, some v, etNone, pmsg⟩ := by
            simp only [run_callback, hv]
          have hgr : (PackedFunc.mk (some rt) pfn pargs (some v) etNone pmsg).get_result =
              .ok (some v) := by
            simp [PackedFunc.get_result, PackedFunc.toBool, etNone]
          simp only [hfind, hrc, hgr] at H1
          cases H1
          rw [get_func_cache_insert, bucketFind_insert]
          exact ⟨_, _, _, rfl, by omega, rfl⟩
    · rw [if_neg hnm] at H1 ⊢
      simp only [] at H1 ⊢
      cases H1
      exact ⟨_, _, _, rfl, by omega, rfl⟩

/-- A server with an always-raising callback bound through `bind_cached`. -/
def throwTable : List (String × Handler) :=
  [("boom", cached_wrapper (some .rint) [] (fun _ => .error "kaboom"))]

/-- A well-formed request for the always-raising cached binding. -/
def throwRequest : MsgBytes :=
  .enc (.jobj [("func_name", .jstr "boom"), ("args", .jarr [])])

/-- Counterexample to C5 as stated: errors are never cached, so a cached
binding of a deterministic callback that always raises is re-invoked by
every byte-identical dispatch: each call returns invocation count 1 with
the cache left empty, so two successive identical dispatches invoke the
callback twice, not at most once. -/
theorem cached_dispatch_counterexample :
    dispatch throwTable [] throwRequest =
      .ok (.enc (.jobj [("func_name", .jstr "boom"), ("args", .jarr []),
        ("except_type", .jint 2), ("err_mesg", .jstr "kaboom")]), [], 1) ∧
    ¬ (1 + 1 ≤ 1) := by
  constructor
  · simp [throwTable, throwRequest, dispatch, from_bytes, parseBytes, objContains,
      objGet?, getField, isStrJ, isEmptyJ, get_func_name, getStringJ, objGetD, tableFind,
      cached_wrapper, dispatch_cached_func, wrapDeser, deserialize_pack, parseSig,
      run_callback, get_func_cache, bucketFind, set_exception, empty_object, objSet,
      setField, to_bytes, etRemoteExec]
  · omega

/-- Witness for the amended C5: the deterministic callback returning 7 is
invoked once by the first dispatch and not at all by the second. -/
theorem cached_dispatch_idempotent_witness :
    ∃ r2 st2 n2,
      dispatch [("c7", cached_wrapper (some .rint) [] (fun _ => .ok (some (.vint 7))))]
        [("c7", [(MsgBytes.enc (.jobj [("func_name", .jstr "c7"), ("args", .jarr [])]),
          RVal.vint 7)])]
        (.enc (.jobj [("func_name", .jstr "c7"), ("args", .jarr [])])) =
        .ok (r2, st2, n2) ∧
      1 + n2 ≤ 1 ∧
      r2 = .enc (.jobj [("func_name", .jstr "c7"), ("args", .jarr []),
        ("result", .jint 7)]) :=
  cached_dispatch_idempotent "c7" .rint [] (fun _ => .ok (some (.vint 7))) []
    (.enc (.jobj [("func_name", .jstr "c7"), ("args", .jarr [])]))
    (.enc (.jobj [("func_name", .jstr "c7"), ("args", .jarr []), ("result", .jint 7)]))
    [("c7", [(MsgBytes.enc (.jobj [("func_name", .jstr "c7"), ("args", .jarr [])]),
      RVal.vint 7)])]
    1
    (fun _ => ⟨.vint 7, rfl⟩)
    (by
      intro obj hobj
      simp only [from_bytes, parseBytes, objContains, objGet?, getField, isStrJ,
        isEmptyJ] at hobj
      simp only [show (("func_name" == "except_type") = false) from by decide,
        if_false] at hobj
      simp at hobj
      subst hobj
      rfl)
    (by
      simp [dispatch, from_bytes, parseBytes, objContains, objGet?, getField, isStrJ,
        isEmptyJ, get_func_name, getStringJ, objGetD, tableFind, cached_wrapper,
        dispatch_cached_func, wrapDeser, deserialize_pack, parseSig, run_callback,
        PackedFunc.get_result, PackedFunc.toBool, get_func_cache, bucketFind,
        cache_insert, bucketInsert, bytesBeq, jvalBeq, jvalListBeq, jvalFieldsBeq,
        serialize_pack, empty_object, objSet, setField, push_arg, pushList, to_bytes,
        etNone])

/-- Witness for the amended C1 on a concrete bound table and request. -/
theorem dispatch_never_raises_witness :
    ∃ out, dispatch secondOnlyTable [] rebindRequest = .ok out :=
  dispatch_never_raises secondOnlyTable [] rebindRequest
    (by
      intro p hp
      simp only [secondOnlyTable, server_bind, table_emplace, tableFind,
        Option.isSome_none, Bool.false_eq_true, if_false, List.nil_append,
        List.mem_singleton] at hp
      subst hp
      exact Or.inl ⟨some .rint, [], fun _ => .ok (some (.vint 2)), rfl⟩)
    (by
      intro obj hobj
      simp only [rebindRequest, from_bytes, parseBytes, objContains, objGet?, getField,
        isStrJ, isEmptyJ] at hobj
      simp only [show (("func_name" == "except_type") = false) from by decide,
        if_false] at hobj
      refine ⟨"f", ?_⟩
      simp at hobj
      subst hobj
      rfl)

end RpcHpp
